import Mathlib

/-!
# Load-test simulator: metric emission engine

A shallow embedding of `google_push.go` (`pushCustomMetrics`), of the emission loop
`sendMetricsLoop`, the setup function `setupResources` and the teardown functions of
`db_mocks.go`, and of the signal handler of `main.go`.

Conventions of the embedding

* Records of the external `datamodel` package carry only the fields the program reads.
  Pointers are modelled by the record they point to (every record is produced by the
  `build*` constructors, which fill all pointer fields that are read here).
* `float64(x)` of an integer counter is modelled by the integer itself; no claim depends
  on the rounding of the conversion.
* Effects (sink calls, log lines, sleeps, deletes, exit) are appended to a trace.
* `timestamppb.Now()` / `time.Now()` values are not recorded.
* Go `int` values (indices, counters) are natural numbers: they are bounded by the number
  of keys plus `batchSize`, far from the 64-bit range.
* The remote sink is an oracle `sink n req`: the result of the call number `n` (counted
  from 0 over the life of the client) with request `req`; `none` is Go's `nil` error.
* Go's `for k := range m` visits every key of the map exactly once in an unspecified
  order: the resulting slice `metricKeys` is a parameter, constrained by
  `metricKeys.Perm (keys m)`.
-/

namespace LoadTest

/-! ## Data model -/

/-- The record `datamodel.Account`: identity and name. -/
structure Account where
  ID : Nat
  Name : String
deriving DecidableEq, Repr

/-- The record `datamodel.Pool`: identity, deployment name, owning account and the regional tenant
project of its cluster details. -/
structure Pool where
  ID : Nat
  DeploymentName : String
  Account : Account
  RegionalTenantProject : String
deriving DecidableEq, Repr

/-- The record `datamodel.Svm`: identity. -/
structure Svm where
  ID : Nat
deriving DecidableEq, Repr

/-- The record `datamodel.Volume`: identity, name, counters and owning pool. -/
structure Volume where
  ID : Nat
  Name : String
  UsedBytes : Int
  SizeInBytes : Int
  Pool : Pool
deriving DecidableEq, Repr

/-- The record `datamodel.ReplicationDetails`: the external relationship identifier. -/
structure ReplicationDetails where
  ExternalUUID : String
deriving DecidableEq, Repr

/-- The record `datamodel.VolumeReplication`: identity, transfer counter and attributes. -/
structure VolumeReplication where
  ID : Nat
  TotalTransferBytes : Int
  ReplicationAttributes : ReplicationDetails
deriving DecidableEq, Repr

/-- A Go `map[string]V`, as an association list with pairwise distinct keys. -/
abbrev GoMap (V : Type) := List (String × V)

/-- The keys of a map. -/
def GoMap.keys {V : Type} (m : GoMap V) : List String := m.map Prod.fst

/-- The assignment `m[k] = v`: replaces the value of an existing key, adds a new key. -/
def GoMap.set {V : Type} : GoMap V → String → V → GoMap V
  | [], k, v => [(k, v)]
  | (k0, v0) :: rest, k, v =>
    if k0 = k then (k0, v) :: rest else (k0, v0) :: GoMap.set rest k v

/-- The read `m[k]` with presence flag (`v, ok := m[k]`). -/
def GoMap.get? {V : Type} (m : GoMap V) (k : String) : Option V := m.lookup k

/-- The record `monitoringpb.Point`: one data point, its double value. -/
structure Point where
  DoubleValue : Int
deriving DecidableEq, Repr

/-- The record `metric.Metric`: type string and labels. -/
structure Metric where
  Type_ : String
  Labels : GoMap String
deriving DecidableEq, Repr

/-- The record `monitoredres.MonitoredResource`: type string and labels. -/
structure MonitoredResource where
  Type_ : String
  Labels : GoMap String
deriving DecidableEq, Repr

/-- The record `monitoringpb.TimeSeries`: one entry of a submission. -/
structure TimeSeries where
  Metric : Metric
  Resource : MonitoredResource
  Points : List Point
deriving DecidableEq, Repr

/-- The record `monitoringpb.CreateTimeSeriesRequest`. -/
structure CreateTimeSeriesRequest where
  Name : String
  TimeSeries : List TimeSeries
deriving DecidableEq, Repr

/-! ## Effects -/

/-- The tables of the store touched by `db.Delete`. -/
inductive Table
  | replication | volume | svm | pool | account
deriving DecidableEq, Repr

/-- The lines written by `log.Printf`, `log.Println` and `fmt.Printf`. -/
inductive LogLine
  /-- The line "Batch %d failed (attempt %d/%d), retrying in 2 seconds: %v". -/
  | retrying (batch attempt maxRetries : Nat) (err : String)
  /-- The line "Batch %d failed after %d attempts: %v". -/
  | failedAfter (batch maxRetries : Nat) (err : String)
  /-- The line "[%s] Metrics push completed - Success: %d, Failed: %d". -/
  | completed (successCount errorCount : Nat)
  /-- The line "Error sending metrics: %v". -/
  | errorSending (err : String)
  /-- The line "Interrupt received, cleaning up created resources...". -/
  | interrupt
  /-- The line "Failed to create metric client: %v". -/
  | clientFailed (err : String)
deriving DecidableEq, Repr

/-- One observable effect of the program. -/
inductive Event
  /-- A call `client.CreateTimeSeries(ctx, req)` and the error it returned. -/
  | createTimeSeries (req : CreateTimeSeriesRequest) (err : Option String)
  | log (line : LogLine)
  /-- The call `time.Sleep`, in milliseconds. -/
  | sleep (ms : Nat)
  /-- The call `db.Delete(&x, x.ID)`. -/
  | delete (table : Table) (id : Nat)
  /-- The call `client.Close()` and the error it returned. -/
  | closeClient (err : Option String)
  /-- The call `cancel()` of the context created in `main`. -/
  | cancel
  /-- The call `os.Exit(code)`. -/
  | exit (code : Nat)
deriving DecidableEq, Repr

/-- The trace of effects so far. -/
abbrev World := List Event

/-- The remote sink: result of call number `n` on request `req`. -/
abbrev Sink := Nat → CreateTimeSeriesRequest → Option String

/-- The requests passed to the sink so far, in order. -/
def calls : World → List CreateTimeSeriesRequest
  | [] => []
  | Event.createTimeSeries req _ :: w => req :: calls w
  | _ :: w => calls w

/-- The number of sink calls so far. -/
def nCalls (w : World) : Nat := (calls w).length

/-- Total time slept, in milliseconds. -/
def slept : World → Nat
  | [] => 0
  | Event.sleep ms :: w => ms + slept w
  | _ :: w => slept w

/-! ## `pushCustomMetrics` -/

/-- Lines 21-25: the sample mapping of one tick. -/
def metricsData (volume : Volume) (replication : VolumeReplication) : GoMap Int :=
  [ ("volume_space_logical_used", volume.UsedBytes),
    ("volume_capacity", volume.SizeInBytes),
    ("snapmirror_total_transfer_bytes", replication.TotalTransferBytes) ]

/-- Lines 38-41: `end := i + batchSize; if end > len(metricKeys) { end = len(metricKeys) }`. -/
def batchEnd (len i batchSize : Nat) : Nat :=
  if i + batchSize > len then len else i + batchSize

/-- Lines 37-47, the keys only: the batches cut by
`for i := 0; i < len(metricKeys); i += batchSize`, each batch being the keys
`metricKeys[j]` for `j := i; j < end; j++`. `none` when the fuel runs out. -/
def cutBatchesFrom (metricKeys : List String) (batchSize : Nat) :
    Nat → Nat → Option (List (List String))
  | 0, _ => none
  | fuel + 1, i =>
    if i < metricKeys.length then
      let end_ := batchEnd metricKeys.length i batchSize
      let batch := (List.range' i (end_ - i)).map (fun j => metricKeys.getD j "")
      (cutBatchesFrom metricKeys batchSize fuel (i + batchSize)).map (fun rest => batch :: rest)
    else some []

/-- The batches cut from `metricKeys`, the loop started at `i := 0`. -/
def cutBatches (metricKeys : List String) (batchSize : Nat) : Option (List (List String)) :=
  cutBatchesFrom metricKeys batchSize (metricKeys.length + 1) 0

/-- Lines 60-71: the labels of the entry for `metricName`: the six base labels, and
`relationship_id` when the metric is `snapmirror_total_transfer_bytes`. -/
def mkLabels (volume : Volume) (replication : VolumeReplication) (projectID : String)
    (metricName : String) : GoMap String :=
  let labels : GoMap String :=
    [ ("volume", volume.Name),
      ("datacenter", "australia-southeast1"),
      ("cluster", "cluster-01"),
      ("project_id", projectID),
      ("deployment_name", volume.Pool.DeploymentName),
      ("project", volume.Pool.Account.Name) ]
  if metricName = "snapmirror_total_transfer_bytes" then
    labels.set "relationship_id" replication.ReplicationAttributes.ExternalUUID
  else labels

/-- Lines 46-89: the time-series entry built for `metricName` (body of the inner loop).
`metricsData[metricName]` is the zero value when the key is absent. -/
def mkTimeSeries (volume : Volume) (replication : VolumeReplication) (projectID : String)
    (metricName : String) : TimeSeries :=
  let value := ((metricsData volume replication).get? metricName).getD 0
  let dataPoint : Point := { DoubleValue := value }
  let labels := mkLabels volume replication projectID metricName
  { Metric := { Type_ := "custom.googleapis.com/" ++ metricName, Labels := labels },
    Resource :=
      { Type_ := "generic_task",
        Labels :=
          [ ("project_id", projectID),
            ("location", "australia-southeast1"),
            ("namespace", "default"),
            ("job", "metric-sender"),
            ("task_id", "1") ] },
    Points := [dataPoint] }

/-- The mutable locals of `pushCustomMetrics`, with the trace of effects. -/
structure PushState where
  world : World
  successCount : Nat
  errorCount : Nat
deriving DecidableEq, Repr

/-- Lines 101-116: `for retry := 0; retry < maxRetries; retry++` around the sink call of
the batch that starts at index `i`. `none` when the fuel runs out. -/
def retryLoop (sink : Sink) (req : CreateTimeSeriesRequest) (i batchSize maxRetries : Nat) :
    Nat → Nat → PushState → Option PushState
  | 0, _, _ => none
  | fuel + 1, retry, st =>
    if retry < maxRetries then
      let err := sink (nCalls st.world) req
      let w := st.world ++ [Event.createTimeSeries req err]
      match err with
      | none =>
        some { st with world := w, successCount := st.successCount + req.TimeSeries.length }
      | some e =>
        if retry < maxRetries - 1 then
          retryLoop sink req i batchSize maxRetries fuel (retry + 1)
            { st with
              world := w ++ [Event.log (LogLine.retrying (i / batchSize + 1) (retry + 1)
                maxRetries e), Event.sleep 2000] }
        else
          retryLoop sink req i batchSize maxRetries fuel (retry + 1)
            { st with
              world := w ++ [Event.log (LogLine.failedAfter (i / batchSize + 1) maxRetries e)],
              errorCount := st.errorCount + req.TimeSeries.length }
    else some st

/-- Lines 43-98: the request of the batch `metricKeys[i:end]`. The reads `metricKeys[j]`
are in range, as `j < end ≤ len(metricKeys)`; see `batch_eq_slice`. -/
def mkRequest (volume : Volume) (replication : VolumeReplication) (projectID : String)
    (metricKeys : List String) (i end_ : Nat) : CreateTimeSeriesRequest :=
  let timeSeries := (List.range' i (end_ - i)).map
    (fun j => mkTimeSeries volume replication projectID (metricKeys.getD j ""))
  { Name := "projects/" ++ projectID, TimeSeries := timeSeries }

/-- The request that carries the entries of the keys of `batch`, in their order. -/
def batchRequest (volume : Volume) (replication : VolumeReplication) (projectID : String)
    (batch : List String) : CreateTimeSeriesRequest :=
  { Name := "projects/" ++ projectID,
    TimeSeries := batch.map (mkTimeSeries volume replication projectID) }

/-- The sequence of sink calls made for the batches `out` when batch number `k` takes
`ns[k]` attempts. -/
def submissions (volume : Volume) (replication : VolumeReplication) (projectID : String)
    (ns : List Nat) (out : List (List String)) : List CreateTimeSeriesRequest :=
  (List.zipWith (fun n b => List.replicate n (batchRequest volume replication projectID b))
    ns out).flatten

/-- Lines 37-122: `for i := 0; i < len(metricKeys); i += batchSize`. `none` when the fuel
runs out (the Go loop does not terminate for `batchSize = 0` on a non-empty slice). -/
def pushLoop (sink : Sink) (volume : Volume) (replication : VolumeReplication)
    (projectID : String) (metricKeys : List String) (batchSize maxRetries : Nat) :
    Nat → Nat → PushState → Option PushState
  | 0, _, _ => none
  | fuel + 1, i, st =>
    if i < metricKeys.length then
      let end_ := batchEnd metricKeys.length i batchSize
      let req := mkRequest volume replication projectID metricKeys i end_
      match retryLoop sink req i batchSize maxRetries (maxRetries + 1) 0 st with
      | none => none
      | some st1 =>
        let st2 :=
          if end_ < metricKeys.length then { st1 with world := st1.world ++ [Event.sleep 100] }
          else st1
        pushLoop sink volume replication projectID metricKeys batchSize maxRetries fuel
          (i + batchSize) st2
    else some st

/-- The body of `pushCustomMetrics` with `batchSize` and `maxRetries` as parameters:
the final locals (the trace ends with the summary line) and the returned error. -/
def pushCustomMetricsWith (batchSize maxRetries : Nat) (sink : Sink) (metricKeys : List String)
    (volume : Volume) (replication : VolumeReplication) (projectID : String) (w : World) :
    Option (PushState × Option String) :=
  match pushLoop sink volume replication projectID metricKeys batchSize maxRetries
      (metricKeys.length + 1) 0 { world := w, successCount := 0, errorCount := 0 } with
  | none => none
  | some st =>
    some ({ st with
            world := st.world ++ [Event.log (LogLine.completed st.successCount st.errorCount)] },
          none)

/-- The function `pushCustomMetrics`: `batchSize := 5`, `maxRetries := 3`. `metricKeys` is
the slice filled by ranging over `metricsData` (lines 32-35). -/
def pushCustomMetrics (sink : Sink) (metricKeys : List String) (volume : Volume)
    (replication : VolumeReplication) (projectID : String) (w : World) :
    Option (PushState × Option String) :=
  pushCustomMetricsWith 5 3 sink metricKeys volume replication projectID w

/-! ## Example inputs -/

/-- The entity of the concrete scenario: `used_bytes = 500`, `size_in_bytes = 1000`. -/
def exampleVolume : Volume :=
  { ID := 1, Name := "volume-1", UsedBytes := 500, SizeInBytes := 1000,
    Pool := { ID := 2, DeploymentName := "deployment-1",
              Account := { ID := 3, Name := "vsa-billing-09" },
              RegionalTenantProject := "z257c6412e15fa257-tp" } }

/-- The replication of the concrete scenario: `transfer_bytes = 200`. -/
def exampleReplication : VolumeReplication :=
  { ID := 4, TotalTransferBytes := 200, ReplicationAttributes := { ExternalUUID := "ext-1" } }

/-- A sink that accepts every call. -/
def acceptAll : Sink := fun _ _ => none

/-- A sink that rejects every call. -/
def rejectAll : Sink := fun _ _ => some "unavailable"

/-- A sink that rejects the calls number 0 and 1 and accepts from call number 2 on. -/
def rejectTwice : Sink := fun n _ => if n < 2 then some "unavailable" else none

/-! ## `sendMetricsLoop` -/

/-- Where a run of `sendMetricsLoop` stands after a bounded number of loop iterations. -/
inductive LoopOutcome
  /-- The function has returned (state STOPPED). -/
  | returned (w : World)
  /-- The process was ended by `log.Fatalf`. -/
  | exited (code : Nat) (w : World)
  /-- The function is still inside `for { ... }` (state RUNNING). -/
  | running (w : World)
  /-- A call of `pushCustomMetrics` did not come back. -/
  | stuck
deriving DecidableEq, Repr

/-- The loop `for { pushCustomMetrics(...); time.Sleep(5 * time.Minute) }` of
`sendMetricsLoop`, unrolled `n` times from tick number `tick`. `order t` is the key order
the map iteration yields in tick `t`. -/
def sendMetricsLoopFrom (sink : Sink) (order : Nat → List String) (volume : Volume)
    (replication : VolumeReplication) (projectID : String) : Nat → Nat → World → LoopOutcome
  | 0, _, w => LoopOutcome.running w
  | n + 1, tick, w =>
    match pushCustomMetrics sink (order tick) volume replication projectID w with
    | none => LoopOutcome.stuck
    | some (st, err) =>
      let w1 :=
        match err with
        | some e => st.world ++ [Event.log (LogLine.errorSending e)]
        | none => st.world
      sendMetricsLoopFrom sink order volume replication projectID n (tick + 1)
        (w1 ++ [Event.sleep 300000])

/-- The function `sendMetricsLoop`, observed for `n` loop iterations. `clientErr` is the
error of `monitoring.NewMetricClient`. The function takes no context and no cancellation
signal: `ctx` is `context.Background()`. -/
def sendMetricsLoop (clientErr : Option String) (sink : Sink) (order : Nat → List String)
    (volume : Volume) (replication : VolumeReplication) (projectID : String) (n : Nat)
    (w : World) : LoopOutcome :=
  match clientErr with
  | some e => LoopOutcome.exited 1 (w ++ [Event.log (LogLine.clientFailed e)])
  | none => sendMetricsLoopFrom sink order volume replication projectID n 0 w

/-- Cancellation has been signalled: `cancel()` occurs in the trace. -/
def cancelled (w : World) : Prop := Event.cancel ∈ w

instance (w : World) : Decidable (cancelled w) := by
  unfold cancelled; infer_instance

/-- The number of ticks run so far: the calls of `pushCustomMetrics` that have printed
their summary line. -/
def ticks : World → Nat
  | [] => 0
  | Event.log (LogLine.completed _ _) :: w => 1 + ticks w
  | _ :: w => ticks w

/-! ## Teardown and the signal handler -/

/-- The run-time panics of the teardown. -/
inductive Panic
  | indexOutOfRange
  | divideByZero
deriving DecidableEq, Repr

/-- The Go index expression `xs[i]`. -/
def index {α : Type} (xs : List α) (i : Nat) : Except Panic α :=
  match xs[i]? with
  | some x => Except.ok x
  | none => Except.error Panic.indexOutOfRange

/-- The Go remainder `i % n` on non-negative operands. -/
def goMod (i n : Nat) : Except Panic Nat :=
  if n = 0 then Except.error Panic.divideByZero else Except.ok (i % n)

/-- The function `cleanupResources`: five deletes, results ignored. -/
def cleanupResources (volume : Volume) (replication : VolumeReplication) (pool : Pool)
    (svm : Svm) (account : Account) (w : World) : World :=
  w ++ [ Event.delete Table.replication replication.ID,
         Event.delete Table.volume volume.ID,
         Event.delete Table.svm svm.ID,
         Event.delete Table.pool pool.ID,
         Event.delete Table.account account.ID ]

/-- The arguments of the call in the body of `cleanupAllResources`, evaluated left to
right. -/
def cleanupArgs (volumes : List Volume) (replications : List VolumeReplication)
    (pools : List Pool) (svms : List Svm) (accounts : List Account) (i : Nat) :
    Except Panic (Volume × VolumeReplication × Pool × Svm × Account) := do
  let volume ← index volumes i
  let replication ← index replications i
  let pi ← goMod i pools.length
  let pool ← index pools pi
  let si ← goMod i svms.length
  let svm ← index svms si
  let account ← index accounts 0
  pure (volume, replication, pool, svm, account)

/-- The loop of `cleanupAllResources` over the indices `is`: the trace, and the panic that
stopped it, if any. -/
def cleanupAllResourcesOver (volumes : List Volume) (replications : List VolumeReplication)
    (pools : List Pool) (svms : List Svm) (accounts : List Account) :
    List Nat → World → World × Option Panic
  | [], w => (w, none)
  | i :: rest, w =>
    match cleanupArgs volumes replications pools svms accounts i with
    | Except.error p => (w, some p)
    | Except.ok (volume, replication, pool, svm, account) =>
      cleanupAllResourcesOver volumes replications pools svms accounts rest
        (cleanupResources volume replication pool svm account w)

/-- The function `cleanupAllResources`: `for i := 0; i < len(volumes); i++`. -/
def cleanupAllResources (volumes : List Volume) (replications : List VolumeReplication)
    (pools : List Pool) (svms : List Svm) (accounts : List Account) (w : World) :
    World × Option Panic :=
  cleanupAllResourcesOver volumes replications pools svms accounts
    (List.range volumes.length) w

/-- How the goroutine of the signal handler ends. -/
inductive HandlerOutcome
  /-- The call `os.Exit(code)` was reached. -/
  | exited (code : Nat)
  /-- The goroutine returned; the process goes on. -/
  | returned
  /-- The goroutine panicked. -/
  | panicked (p : Panic)
deriving DecidableEq, Repr

/-- The goroutine `go func() { <-sigs; ... }()` of `main`, from the receipt of the signal.
`closeErr` is the error of `client.Close()`. -/
def signalHandler (volumes : List Volume) (replications : List VolumeReplication)
    (pools : List Pool) (svms : List Svm) (accounts : List Account)
    (closeErr : Option String) (w : World) : World × HandlerOutcome :=
  let w1 := w ++ [Event.log LogLine.interrupt]
  match cleanupAllResources volumes replications pools svms accounts w1 with
  | (w2, some p) => (w2, HandlerOutcome.panicked p)
  | (w2, none) =>
    let w3 := w2 ++ [Event.closeClient closeErr]
    match closeErr with
    | some _ => (w3, HandlerOutcome.returned)
    | none => (w3 ++ [Event.cancel, Event.exit 0], HandlerOutcome.exited 0)


/-- The deletes issued by iteration `i` of the loop of `cleanupAllResources`: those of its
call of `cleanupResources`, none when the evaluation of the arguments panics. -/
def cleanupEvents (volumes : List Volume) (replications : List VolumeReplication)
    (pools : List Pool) (svms : List Svm) (accounts : List Account) (i : Nat) : World :=
  match cleanupArgs volumes replications pools svms accounts i with
  | Except.error _ => []
  | Except.ok (volume, replication, pool, svm, account) =>
    cleanupResources volume replication pool svm account []

/-- The deletes of a whole run of `cleanupAllResources`, iteration after iteration. -/
def teardownDeletes (volumes : List Volume) (replications : List VolumeReplication)
    (pools : List Pool) (svms : List Svm) (accounts : List Account) : World :=
  ((List.range volumes.length).map
    (cleanupEvents volumes replications pools svms accounts)).flatten

/-! ## `setupResources` -/

/-- The outside world of the `Create*` functions: `uuid n` is the result number `n` of
`uuid.New().String()`, `create n` the outcome of the call number `n` of `db.Create`, an
error or the ID the store assigns to the record. -/
structure Store where
  uuid : Nat → String
  create : Nat → Except String Nat

/-- How many UUIDs have been drawn and how many `db.Create` calls have been made. -/
structure Counters where
  uuids : Nat
  creates : Nat
deriving DecidableEq, Repr

/-- The function `CreateAccount`: one UUID, one `db.Create`. -/
def CreateAccount (s : Store) (ConsumerProjectID : String) (k : Counters) :
    Except String (Account × Counters) :=
  match s.create k.creates with
  | Except.error e => Except.error e
  | Except.ok id =>
    Except.ok ({ ID := id, Name := ConsumerProjectID },
      { uuids := k.uuids + 1, creates := k.creates + 1 })

/-- The function `buildpool`; the ID is assigned by the store later. The parameter
`tenantProjects` is not read. -/
def buildpool (s : Store) (_name : String) (account : Account) (_tenantProjects : String)
    (k : Counters) : Pool :=
  { ID := 0, DeploymentName := "deployment-" ++ s.uuid k.uuids, Account := account,
    RegionalTenantProject := "z257c6412e15fa257-tp" }

/-- The function `CreatePool`: one UUID, one `db.Create`. -/
def CreatePool (s : Store) (account : Account) (name tenantProjects : String) (k : Counters) :
    Except String (Pool × Counters) :=
  let pool := buildpool s name account tenantProjects k
  match s.create k.creates with
  | Except.error e => Except.error e
  | Except.ok id =>
    Except.ok ({ pool with ID := id }, { uuids := k.uuids + 1, creates := k.creates + 1 })

/-- The function `CreateSvm` (with `buildSvm`): one UUID, one `db.Create`. -/
def CreateSvm (s : Store) (_account : Account) (_pool : Pool) (_name : String) (k : Counters) :
    Except String (Svm × Counters) :=
  match s.create k.creates with
  | Except.error e => Except.error e
  | Except.ok id => Except.ok ({ ID := id }, { uuids := k.uuids + 1, creates := k.creates + 1 })

/-- The function `buildVolume`; the ID is assigned by the store later. -/
def buildVolume (s : Store) (name : String) (_account : Account) (pool : Pool) (_svm : Svm)
    (k : Counters) : Volume :=
  { ID := 0, Name := name ++ "-" ++ s.uuid k.uuids, UsedBytes := 0,
    SizeInBytes := 1073741824, Pool := pool }

/-- The function `CreateVolume`: one UUID, one `db.Create`. -/
def CreateVolume (s : Store) (account : Account) (pool : Pool) (svm : Svm) (name : String)
    (k : Counters) : Except String (Volume × Counters) :=
  let volume := buildVolume s name account pool svm k
  match s.create k.creates with
  | Except.error e => Except.error e
  | Except.ok id =>
    Except.ok ({ volume with ID := id }, { uuids := k.uuids + 1, creates := k.creates + 1 })

/-- The function `buildReplication`: two UUIDs, the second is the external one; the ID is
assigned by the store later. -/
def buildReplication (s : Store) (_name : String) (_account : Account) (_volume : Volume)
    (k : Counters) : VolumeReplication :=
  { ID := 0, TotalTransferBytes := 10000,
    ReplicationAttributes := { ExternalUUID := s.uuid (k.uuids + 1) } }

/-- The function `CreateReplication`: two UUIDs, one `db.Create`. -/
def CreateReplication (s : Store) (account : Account) (volume : Volume) (name : String)
    (k : Counters) : Except String (VolumeReplication × Counters) :=
  let replication := buildReplication s name account volume k
  match s.create k.creates with
  | Except.error e => Except.error e
  | Except.ok id =>
    Except.ok ({ replication with ID := id },
      { uuids := k.uuids + 2, creates := k.creates + 1 })

/-- The slices returned by `setupResources`. -/
structure Resources where
  accounts : List Account
  pools : List Pool
  svms : List Svm
  volumes : List Volume
  replications : List VolumeReplication
deriving DecidableEq, Repr

/-- The ways `setupResources` ends without returning its slices. -/
inductive SetupEnd
  /-- The function returned a non-nil error. -/
  | failed (err : String)
  /-- The process was ended by `log.Fatalf` or `log.Fatal`. -/
  | fatal
  /-- The function panicked. -/
  | panicked (p : Panic)
deriving DecidableEq, Repr

/-- Lines 78-90: the loop `for v := 0; v < numVolumesEachPool; v++` over the indices `vs`. -/
def setupVolumes (s : Store) (account : Account) (pool : Pool) (svm : Svm) :
    List Nat → Resources → Counters → Except SetupEnd (Resources × Counters)
  | [], res, k => Except.ok (res, k)
  | _ :: vs, res, k =>
    match CreateVolume s account pool svm "volume" k with
    | Except.error e => Except.error (SetupEnd.failed e)
    | Except.ok (volume, k1) =>
      match CreateReplication s account volume "replication" k1 with
      | Except.error e => Except.error (SetupEnd.failed e)
      | Except.ok (replication, k2) =>
        setupVolumes s account pool svm vs
          { res with
            volumes := res.volumes ++ [volume],
            replications := res.replications ++ [replication] } k2

/-- Lines 65-91: the loop `for p := 0; p < numPoolsEachTP; p++` over the indices `ps`, in
the iteration `t` of the outer loop. -/
def setupPools (s : Store) (account : Account) (tenantProjects : List String)
    (numVolumesEachPool t : Nat) :
    List Nat → Resources → Counters → Except SetupEnd (Resources × Counters)
  | [], res, k => Except.ok (res, k)
  | _ :: ps, res, k =>
    match index tenantProjects t with
    | Except.error pn => Except.error (SetupEnd.panicked pn)
    | Except.ok tenantProject =>
      match CreatePool s account "pool" tenantProject k with
      | Except.error e => Except.error (SetupEnd.failed e)
      | Except.ok (pool, k1) =>
        match CreateSvm s account pool "svm" k1 with
        | Except.error e => Except.error (SetupEnd.failed e)
        | Except.ok (svm, k2) =>
          match setupVolumes s account pool svm (List.range numVolumesEachPool)
              { res with pools := res.pools ++ [pool], svms := res.svms ++ [svm] } k2 with
          | Except.error e => Except.error e
          | Except.ok (res1, k3) =>
            setupPools s account tenantProjects numVolumesEachPool t ps res1 k3

/-- Lines 64-92: the loop `for t := 0; t < numTPs; t++` over the indices `ts`. -/
def setupTPs (s : Store) (account : Account) (tenantProjects : List String)
    (numPoolsEachTP numVolumesEachPool : Nat) :
    List Nat → Resources → Counters → Except SetupEnd (Resources × Counters)
  | [], res, k => Except.ok (res, k)
  | t :: ts, res, k =>
    match setupPools s account tenantProjects numVolumesEachPool t
        (List.range numPoolsEachTP) res k with
    | Except.error e => Except.error e
    | Except.ok (res1, k1) =>
      setupTPs s account tenantProjects numPoolsEachTP numVolumesEachPool ts res1 k1

/-- The function `setupResources`. `tps` is the result of `getActiveTenantProjects`; the
flags `numTPs`, `numPoolsEachTP`, `numVolumesEachPool` are natural numbers (a negative
flag runs no iteration, like 0). -/
def setupResources (s : Store) (ConsumerProjectID : String) (tps : Except String (List String))
    (numTPs numPoolsEachTP numVolumesEachPool : Nat) : Except SetupEnd Resources :=
  match CreateAccount s ConsumerProjectID { uuids := 0, creates := 0 } with
  | Except.error e => Except.error (SetupEnd.failed e)
  | Except.ok (account, k) =>
    match tps with
    | Except.error _ => Except.error SetupEnd.fatal
    | Except.ok tenantProjects =>
      if tenantProjects.length = 0 then Except.error SetupEnd.fatal
      else
        match setupTPs s account tenantProjects numPoolsEachTP numVolumesEachPool
            (List.range numTPs)
            { accounts := [account], pools := [], svms := [], volumes := [],
              replications := [] } k with
        | Except.error e => Except.error e
        | Except.ok (res, _) => Except.ok res

/-- A second volume for the example teardown. -/
def exampleVolume2 : Volume :=
  { ID := 11, Name := "volume-2", UsedBytes := 0, SizeInBytes := 1073741824,
    Pool := exampleVolume.Pool }

/-- A second replication for the example teardown. -/
def exampleReplication2 : VolumeReplication :=
  { ID := 14, TotalTransferBytes := 10000,
    ReplicationAttributes := { ExternalUUID := "ext-2" } }

/-- The volumes of the example teardown. -/
def exampleVolumes : List Volume := [exampleVolume, exampleVolume2]

/-- The replications of the example teardown. -/
def exampleReplications : List VolumeReplication := [exampleReplication, exampleReplication2]

/-- The pools of the example teardown. -/
def examplePools : List Pool := [exampleVolume.Pool]

/-- The svms of the example teardown. -/
def exampleSvms : List Svm := [{ ID := 5 }]

/-- The accounts of the example teardown. -/
def exampleAccounts : List Account := [exampleVolume.Pool.Account]

/-- A store whose creates all succeed, assigning the IDs 1, 2, 3, ... -/
def exampleStore : Store :=
  { uuid := fun n => "uuid-" ++ toString n, create := fun n => Except.ok (n + 1) }

/-! ## Trace lemmas -/

theorem calls_append (w1 w2 : World) : calls (w1 ++ w2) = calls w1 ++ calls w2 := by
  induction w1 with
  | nil => simp [calls]
  | cons e w ih => cases e <;> simp [calls, ih]

theorem nCalls_append (w1 w2 : World) : nCalls (w1 ++ w2) = nCalls w1 + nCalls w2 := by
  simp [nCalls, calls_append]

theorem ticks_append (w1 w2 : World) : ticks (w1 ++ w2) = ticks w1 + ticks w2 := by
  induction w1 with
  | nil => simp [ticks]
  | cons e w ih =>
    cases e with
    | log line => cases line <;> simp [ticks, ih, Nat.add_assoc]
    | _ => simp [ticks, ih]

theorem slept_append (w1 w2 : World) : slept (w1 ++ w2) = slept w1 + slept w2 := by
  induction w1 with
  | nil => simp [slept]
  | cons e w ih => cases e <;> simp [slept, ih, Nat.add_assoc]

/-! ## The batches cut by the loop -/

/-- The inner loop reads the slice `metricKeys[i : i+n]`. -/
theorem range_map_getD (keys : List String) (d : String) :
    ∀ (n i : Nat), i + n ≤ keys.length →
      (List.range' i n).map (fun j => keys.getD j d) = (keys.drop i).take n := by
  intro n
  induction n with
  | zero => intro i _; simp
  | succ n ih =>
    intro i h
    have hi : i < keys.length := by omega
    rw [List.range'_succ, List.map_cons, ih (i + 1) (by omega), List.drop_eq_getElem_cons hi,
      List.take_succ_cons]
    simp [List.getD_eq_getElem?_getD, List.getElem?_eq_getElem hi]

theorem batchEnd_le (len i batchSize : Nat) : batchEnd len i batchSize ≤ len := by
  unfold batchEnd; split <;> omega

theorem batchEnd_sub (len i batchSize : Nat) :
    batchEnd len i batchSize - i = min batchSize (len - i) := by
  unfold batchEnd; split <;> omega

/-- The batch cut at index `i` is the slice of `batchSize` keys from `i` on. -/
theorem batch_eq_slice (keys : List String) (i batchSize : Nat) (h : i ≤ keys.length) :
    (List.range' i (batchEnd keys.length i batchSize - i)).map (fun j => keys.getD j "")
      = (keys.drop i).take batchSize := by
  rw [range_map_getD keys "" _ i (by have := batchEnd_le keys.length i batchSize; omega),
    batchEnd_sub _ _ _, List.take_eq_take]
  simp

/-- The loop over the keys, from index `i` on: it terminates and cuts `metricKeys[i:]`
into consecutive batches of `batchSize` keys, the last one possibly shorter. -/
theorem cutBatchesFrom_spec (keys : List String) (batchSize : Nat) (hb : 1 ≤ batchSize) :
    ∀ (fuel i : Nat), keys.length - i < fuel →
      ∃ out, cutBatchesFrom keys batchSize fuel i = some out ∧
        out.flatten = keys.drop i ∧
        (∀ b ∈ out, 1 ≤ b.length ∧ b.length ≤ batchSize) ∧
        (∀ b ∈ out.dropLast, b.length = batchSize) ∧
        (i < keys.length → out ≠ []) ∧
        (keys.length ≤ i → out = []) := by
  intro fuel
  induction fuel with
  | zero => intro i h; omega
  | succ fuel ih =>
    intro i hfuel
    by_cases hi : i < keys.length
    · obtain ⟨rest, hrest, hflat, hsize, hfull, _, hnil⟩ := ih (i + batchSize) (by omega)
      refine ⟨(keys.drop i).take batchSize :: rest, ?_, ?_, ?_, ?_, ?_, ?_⟩
      · simp only [cutBatchesFrom, if_pos hi, hrest, Option.map_some',
          batch_eq_slice keys i batchSize (Nat.le_of_lt hi)]
      · rw [List.flatten_cons, hflat, ← List.drop_drop, List.take_append_drop]
      · intro b hmem
        rcases List.mem_cons.1 hmem with rfl | hmem
        · simp only [List.length_take, List.length_drop]; omega
        · exact hsize b hmem
      · intro b hmem
        cases rest with
        | nil => simp at hmem
        | cons r rs =>
          rw [List.dropLast_cons₂] at hmem
          rcases List.mem_cons.1 hmem with rfl | hmem
          · have hlt : i + batchSize < keys.length := by
              by_contra hcon
              exact List.cons_ne_nil _ _ (hnil (by omega))
            simp only [List.length_take, List.length_drop]; omega
          · exact hfull b hmem
      · intro _; exact List.cons_ne_nil _ _
      · intro hle; omega
    · refine ⟨[], ?_, ?_, ?_, ?_, ?_, ?_⟩
      · simp only [cutBatchesFrom, if_neg hi]
      · rw [List.drop_of_length_le (by omega)]; rfl
      · intro b hmem; simp at hmem
      · intro b hmem; simp at hmem
      · intro h; exact absurd h hi
      · intro _; rfl

/-! ## The retry loop -/

/-- Once `retry` has reached `maxRetries` the loop is left with the state unchanged. -/
theorem retryLoop_exit (sink : Sink) (req : CreateTimeSeriesRequest)
    (i batchSize maxRetries fuel retry : Nat) (st : PushState) (h : maxRetries ≤ retry) :
    retryLoop sink req i batchSize maxRetries (fuel + 1) retry st = some st := by
  simp only [retryLoop, if_neg (Nat.not_lt.2 h)]

/-- For every sink the retry loop terminates after between 1 and `maxRetries - retry`
calls, all with the same request: every call but the last was rejected, and the loop adds
the length of the batch to `successCount` when the last call was accepted, to `errorCount`
when the last call was rejected, which happens only at the last attempt. -/
theorem retryLoop_spec (sink : Sink) (req : CreateTimeSeriesRequest)
    (i batchSize maxRetries : Nat) :
    ∀ (fuel retry : Nat) (st : PushState), maxRetries - retry < fuel → retry < maxRetries →
      ∃ st' n ext, retryLoop sink req i batchSize maxRetries fuel retry st = some st' ∧
        1 ≤ n ∧ n ≤ maxRetries - retry ∧
        st'.world = st.world ++ ext ∧ calls ext = List.replicate n req ∧ ticks ext = 0 ∧
        (∀ j c, c = nCalls st.world + j → j + 1 < n → (sink c req).isSome) ∧
        ((st'.successCount = st.successCount + req.TimeSeries.length ∧
            st'.errorCount = st.errorCount ∧
            (∀ c, c + 1 = nCalls st.world + n → sink c req = none)) ∨
         (st'.successCount = st.successCount ∧
            st'.errorCount = st.errorCount + req.TimeSeries.length ∧
            n = maxRetries - retry ∧
            (∀ c, c + 1 = nCalls st.world + n → (sink c req).isSome))) := by
  intro fuel
  induction fuel with
  | zero => intro retry st h; omega
  | succ fuel ih =>
    intro retry st hfuel hlt
    cases herr : sink (nCalls st.world) req with
    | none =>
      refine ⟨{ st with
                world := st.world ++ [Event.createTimeSeries req none],
                successCount := st.successCount + req.TimeSeries.length },
        1, [Event.createTimeSeries req none], ?_, Nat.le_refl 1, by omega, rfl, ?_, ?_, ?_,
        Or.inl ⟨rfl, rfl, ?_⟩⟩
      · simp only [retryLoop, if_pos hlt, herr]
      · simp [calls]
      · simp [ticks]
      · intro j c _ hj; omega
      · intro c hc
        have hc' : c = nCalls st.world := by omega
        rw [hc', herr]
    | some e =>
      by_cases hlast : retry < maxRetries - 1
      · obtain ⟨st', n, ext, hrun, h1, hn, hworld, hcalls, hticks, hrej, hcount⟩ :=
          ih (retry + 1)
            { st with
              world := st.world ++ [Event.createTimeSeries req (some e)] ++
                [Event.log (LogLine.retrying (i / batchSize + 1) (retry + 1) maxRetries e),
                  Event.sleep 2000] }
            (by omega) (by omega)
        have hnc : nCalls (st.world ++ [Event.createTimeSeries req (some e)] ++
            [Event.log (LogLine.retrying (i / batchSize + 1) (retry + 1) maxRetries e),
              Event.sleep 2000]) = nCalls st.world + 1 := by
          simp [nCalls, calls_append, calls]
        simp only [hnc] at hrej hcount
        refine ⟨st', n + 1,
          [Event.createTimeSeries req (some e),
            Event.log (LogLine.retrying (i / batchSize + 1) (retry + 1) maxRetries e),
            Event.sleep 2000] ++ ext, ?_, by omega, by omega, ?_, ?_, ?_, ?_, ?_⟩
        · simp only [retryLoop, if_pos hlt, herr, if_pos hlast]
          exact hrun
        · rw [hworld]; simp
        · simp [calls_append, calls, hcalls, List.replicate_succ]
        · simp [ticks_append, ticks, hticks]
        · intro j c hc hj
          cases j with
          | zero =>
            have hc' : c = nCalls st.world := by omega
            rw [hc', herr]; rfl
          | succ j => exact hrej j c (by omega) (by omega)
        · rcases hcount with ⟨hs, he, hacc⟩ | ⟨hs, he, hn', hrej'⟩
          · exact Or.inl ⟨hs, he, fun c hc => hacc c (by omega)⟩
          · exact Or.inr ⟨hs, he, by omega, fun c hc => hrej' c (by omega)⟩
      · obtain ⟨f, rfl⟩ : ∃ f, fuel = f + 1 := ⟨fuel - 1, by omega⟩
        refine ⟨{ st with
                  world := st.world ++ [Event.createTimeSeries req (some e)] ++
                    [Event.log (LogLine.failedAfter (i / batchSize + 1) maxRetries e)],
                  errorCount := st.errorCount + req.TimeSeries.length },
          1, [Event.createTimeSeries req (some e),
            Event.log (LogLine.failedAfter (i / batchSize + 1) maxRetries e)],
          ?_, Nat.le_refl 1, by omega, ?_, ?_, ?_, ?_, Or.inr ⟨rfl, rfl, by omega, ?_⟩⟩
        · simp only [retryLoop, if_pos hlt, herr, if_neg hlast]
          rw [if_neg (by omega)]
        · simp
        · simp [calls]
        · simp [ticks]
        · intro j c _ hj; omega
        · intro c hc
          have hc' : c = nCalls st.world := by omega
          rw [hc', herr]; rfl

/-! ## The loop over the batches -/

/-- The request built at index `i` carries the entries of the batch cut at `i`. -/
theorem mkRequest_eq (volume : Volume) (replication : VolumeReplication) (projectID : String)
    (keys : List String) (i batchSize : Nat) (h : i ≤ keys.length) :
    mkRequest volume replication projectID keys i (batchEnd keys.length i batchSize)
      = batchRequest volume replication projectID ((keys.drop i).take batchSize) := by
  unfold mkRequest batchRequest
  rw [← batch_eq_slice keys i batchSize h, List.map_map]
  rfl

/-- For every sink the loop over the batches terminates; the sink receives the batches
cut by the loop, in order, each between 1 and `maxRetries` times, and the two counters
together grow by the number of keys from `i` on. -/
theorem pushLoop_spec (sink : Sink) (volume : Volume) (replication : VolumeReplication)
    (projectID : String) (keys : List String) (batchSize maxRetries : Nat)
    (hb : 1 ≤ batchSize) (hr : 1 ≤ maxRetries) :
    ∀ (fuel i : Nat) (st : PushState), keys.length - i < fuel →
      ∃ st' out ns ext,
        pushLoop sink volume replication projectID keys batchSize maxRetries fuel i st
          = some st' ∧
        cutBatchesFrom keys batchSize fuel i = some out ∧
        ns.length = out.length ∧
        (∀ n ∈ ns, 1 ≤ n ∧ n ≤ maxRetries) ∧
        st'.world = st.world ++ ext ∧
        calls ext = submissions volume replication projectID ns out ∧
        ticks ext = 0 ∧
        st'.successCount + st'.errorCount
          = st.successCount + st.errorCount + (keys.length - i) ∧
        ((∀ c req, (sink c req).isSome) →
          ns = List.replicate out.length maxRetries ∧
          st'.successCount = st.successCount) := by
  intro fuel
  induction fuel with
  | zero => intro i st h; omega
  | succ fuel ih =>
    intro i st hfuel
    by_cases hi : i < keys.length
    · obtain ⟨st1, n, ext1, hretry, hn1, hn, hworld1, hcalls1, hticks1, _, hcount1⟩ :=
        retryLoop_spec sink
          (mkRequest volume replication projectID keys i (batchEnd keys.length i batchSize))
          i batchSize maxRetries (maxRetries + 1) 0 st (by omega) (by omega)
      have hlen : (mkRequest volume replication projectID keys i
          (batchEnd keys.length i batchSize)).TimeSeries.length
            = min batchSize (keys.length - i) := by
        rw [mkRequest_eq _ _ _ _ _ _ (Nat.le_of_lt hi)]
        simp [batchRequest]
      obtain ⟨st2, ext2, hst2, hw2, hc2, ht2, hs2, he2⟩ : ∃ (st2 : PushState) (ext2 : World),
          st2 = (if batchEnd keys.length i batchSize < keys.length then
              { st1 with world := st1.world ++ [Event.sleep 100] } else st1) ∧
          st2.world = st1.world ++ ext2 ∧ calls ext2 = [] ∧ ticks ext2 = 0 ∧
          st2.successCount = st1.successCount ∧ st2.errorCount = st1.errorCount := by
        by_cases hend : batchEnd keys.length i batchSize < keys.length
        · exact ⟨_, [Event.sleep 100], rfl, by simp [hend], by simp [calls],
            by simp [ticks], by simp [hend], by simp [hend]⟩
        · exact ⟨_, [], rfl, by simp [hend], by simp [calls], by simp [ticks],
            by simp [hend], by simp [hend]⟩
      obtain ⟨st', out, ns, ext, hrun, hcut, hns, hbound, hworld, hcalls, hticks, hsum, hall⟩ :=
        ih (i + batchSize) st2 (by omega)
      refine ⟨st', (keys.drop i).take batchSize :: out, n :: ns, ext1 ++ ext2 ++ ext,
        ?_, ?_, ?_, ?_, ?_, ?_, ?_, ?_, ?_⟩
      · simp only [pushLoop, if_pos hi, hretry]
        rw [← hst2]
        exact hrun
      · simp only [cutBatchesFrom, if_pos hi, hcut, Option.map_some',
          batch_eq_slice keys i batchSize (Nat.le_of_lt hi)]
      · simp [hns]
      · intro m hm
        rcases List.mem_cons.1 hm with rfl | hm
        · exact ⟨hn1, by omega⟩
        · exact hbound m hm
      · rw [hworld, hw2, hworld1]; simp
      · rw [calls_append, calls_append, hcalls, hc2, hcalls1,
          mkRequest_eq _ _ _ _ _ _ (Nat.le_of_lt hi)]
        simp [submissions]
      · simp [ticks_append, hticks, ht2, hticks1]
      · rw [hsum, hs2, he2]
        rcases hcount1 with ⟨hs, he, _⟩ | ⟨hs, he, _⟩ <;> rw [hs, he, hlen] <;> omega
      · intro hrej
        obtain ⟨hns', hsucc⟩ := hall hrej
        rcases hcount1 with ⟨_, _, hacc⟩ | ⟨hs, _, hn', _⟩
        · have h := hrej (nCalls st.world + (n - 1))
            (mkRequest volume replication projectID keys i (batchEnd keys.length i batchSize))
          rw [hacc (nCalls st.world + (n - 1)) (by omega)] at h
          exact absurd h (by simp)
        · refine ⟨?_, by rw [hsucc, hs2, hs]⟩
          rw [hns', List.length_cons, List.replicate_succ]
          simp only [List.cons.injEq, and_true]
          omega
    · refine ⟨st, [], [], [], ?_, ?_, rfl, ?_, ?_, ?_, ?_, ?_, ?_⟩
      · simp only [pushLoop, if_neg hi]
      · simp only [cutBatchesFrom, if_neg hi]
      · intro m hm; simp at hm
      · simp
      · simp [submissions, calls]
      · simp [ticks]
      · omega
      · intro _; exact ⟨rfl, rfl⟩

/-- Every request among the submissions is the request of one of the batches. -/
theorem mem_submissions (volume : Volume) (replication : VolumeReplication)
    (projectID : String) :
    ∀ (ns : List Nat) (out : List (List String)) (req : CreateTimeSeriesRequest),
      req ∈ submissions volume replication projectID ns out →
      ∃ b ∈ out, req = batchRequest volume replication projectID b := by
  intro ns
  induction ns with
  | nil => intro out req h; simp [submissions] at h
  | cons n ns ih =>
    intro out req h
    cases out with
    | nil => simp [submissions] at h
    | cons b bs =>
      simp only [submissions, List.zipWith_cons_cons, List.flatten_cons, List.mem_append] at h
      rcases h with h | h
      · exact ⟨b, List.mem_cons_self _ _, (List.mem_replicate.1 h).2⟩
      · obtain ⟨b', hb', hreq⟩ := ih bs req h
        exact ⟨b', List.mem_cons_of_mem _ hb', hreq⟩

/-- One call of the function body: it returns a `nil` error for every sink; the sink
receives the batches cut from `metricKeys`, in order, each between 1 and `maxRetries`
times; one summary line is printed; the counters add up to the number of samples. -/
theorem pushCustomMetricsWith_spec (batchSize maxRetries : Nat) (sink : Sink)
    (metricKeys : List String) (volume : Volume) (replication : VolumeReplication)
    (projectID : String) (w : World) (hb : 1 ≤ batchSize) (hr : 1 ≤ maxRetries) :
    ∃ st out ns ext,
      pushCustomMetricsWith batchSize maxRetries sink metricKeys volume replication projectID w
        = some (st, none) ∧
      cutBatches metricKeys batchSize = some out ∧
      ns.length = out.length ∧
      (∀ n ∈ ns, 1 ≤ n ∧ n ≤ maxRetries) ∧
      st.world = w ++ ext ∧
      calls ext = submissions volume replication projectID ns out ∧
      ticks ext = 1 ∧
      st.successCount + st.errorCount = metricKeys.length ∧
      ((∀ c req, (sink c req).isSome) →
        ns = List.replicate out.length maxRetries ∧ st.successCount = 0 ∧
        st.errorCount = metricKeys.length) := by
  obtain ⟨st', out, ns, ext, hrun, hcut, hns, hbound, hworld, hcalls, hticks, hsum, hall⟩ :=
    pushLoop_spec sink volume replication projectID metricKeys batchSize maxRetries hb hr
      (metricKeys.length + 1) 0 { world := w, successCount := 0, errorCount := 0 } (by omega)
  refine ⟨{ st' with
      world := st'.world ++ [Event.log (LogLine.completed st'.successCount st'.errorCount)] },
    out, ns, ext ++ [Event.log (LogLine.completed st'.successCount st'.errorCount)],
    ?_, hcut, hns, hbound, ?_, ?_, ?_, ?_, ?_⟩
  · simp only [pushCustomMetricsWith, hrun]
  · simp only [hworld, List.append_assoc]
  · simp [calls_append, calls, hcalls]
  · simp [ticks_append, ticks, hticks]
  · simpa using hsum
  · intro hrej
    obtain ⟨hns', hsucc⟩ := hall hrej
    have hsucc0 : st'.successCount = 0 := hsucc
    refine ⟨hns', hsucc0, ?_⟩
    have hsum' : st'.successCount + st'.errorCount = metricKeys.length := by simpa using hsum
    show st'.errorCount = metricKeys.length
    omega

/-! ## Batching (C1, C2) -/

/-- C1 (totality of batching): for every sample mapping `m` (keys pairwise distinct, as
in any Go map), every slice `metricKeys` the map iteration can produce and every
`batchSize ≥ 1`, the loop `for i := 0; i < len(metricKeys); i += batchSize` terminates
and the batches it cuts, concatenated in order, are `metricKeys`; every key of the
mapping occurs exactly once over all batches and nothing else occurs in a batch. -/
theorem batching_total {V : Type} (m : GoMap V) (metricKeys : List String) (batchSize : Nat)
    (hm : m.keys.Nodup) (hkeys : metricKeys.Perm m.keys) (hb : 1 ≤ batchSize) :
    ∃ batches, cutBatches metricKeys batchSize = some batches ∧
      batches.flatten = metricKeys ∧
      (∀ k ∈ m.keys, (batches.map (List.count k)).sum = 1) ∧
      (∀ k ∈ batches.flatten, k ∈ m.keys) := by
  obtain ⟨out, hcut, hflat, _, _, _, _⟩ :=
    cutBatchesFrom_spec metricKeys batchSize hb (metricKeys.length + 1) 0 (by omega)
  rw [List.drop_zero] at hflat
  refine ⟨out, hcut, hflat, ?_, ?_⟩
  · intro k hk
    rw [← List.count_flatten, hflat, hkeys.count_eq]
    exact List.count_eq_one_of_mem hm hk
  · intro k hk
    rw [hflat] at hk
    exact hkeys.subset hk

/-- Witness of C1: a mapping with three samples iterated in the order c, a, b and cut with
`batchSize = 2`. -/
theorem batching_total_witness :
    (GoMap.keys [("a", (1 : Int)), ("b", 2), ("c", 3)]).Nodup ∧
    List.Perm ["c", "a", "b"] (GoMap.keys [("a", (1 : Int)), ("b", 2), ("c", 3)]) ∧
    ∃ batches, cutBatches ["c", "a", "b"] 2 = some batches ∧
      batches.flatten = ["c", "a", "b"] ∧
      (∀ k ∈ GoMap.keys [("a", (1 : Int)), ("b", 2), ("c", 3)],
        (batches.map (List.count k)).sum = 1) ∧
      (∀ k ∈ batches.flatten, k ∈ GoMap.keys [("a", (1 : Int)), ("b", 2), ("c", 3)]) :=
  ⟨by decide, by decide,
    batching_total [("a", (1 : Int)), ("b", 2), ("c", 3)] ["c", "a", "b"] 2
      (by decide) (by decide) (by decide)⟩

/-- C2 (batch size bound): for every slice of keys and every `batchSize ≥ 1`, every batch
cut by the loop except the last has exactly `batchSize` entries, the last has between 1
and `batchSize`, and a non-empty slice gives at least one batch; every request the sink
receives during the tick carries between 1 and `batchSize` entries; for an empty mapping
no batch is cut and the sink is not called. -/
theorem batch_size_bound (sink : Sink) (volume : Volume) (replication : VolumeReplication)
    (projectID : String) (w : World) (metricKeys : List String) (batchSize maxRetries : Nat)
    (hb : 1 ≤ batchSize) (hr : 1 ≤ maxRetries) :
    (∃ batches, cutBatches metricKeys batchSize = some batches ∧
      (∀ b ∈ batches.dropLast, b.length = batchSize) ∧
      (∀ b, batches.getLast? = some b → 1 ≤ b.length ∧ b.length ≤ batchSize) ∧
      (metricKeys ≠ [] → batches ≠ [])) ∧
    (∃ st ext,
      pushCustomMetricsWith batchSize maxRetries sink metricKeys volume replication projectID w
        = some (st, none) ∧
      st.world = w ++ ext ∧
      ∀ req ∈ calls ext, 1 ≤ req.TimeSeries.length ∧ req.TimeSeries.length ≤ batchSize) ∧
    cutBatches [] batchSize = some [] ∧
    (∃ st,
      pushCustomMetricsWith batchSize maxRetries sink [] volume replication projectID w
        = some (st, none) ∧
      calls st.world = calls w) := by
  obtain ⟨out, hcut, _, hsize, hfull, hne, _⟩ :=
    cutBatchesFrom_spec metricKeys batchSize hb (metricKeys.length + 1) 0 (by omega)
  refine ⟨⟨out, hcut, hfull, ?_, ?_⟩, ?_, rfl, ?_⟩
  · intro b hb'
    exact hsize b (List.mem_of_mem_getLast? hb')
  · intro hk
    exact hne (List.length_pos.2 hk)
  · obtain ⟨st, out', ns, ext, hrun, hcut', _, _, hworld, hcalls, _, _, _⟩ :=
      pushCustomMetricsWith_spec batchSize maxRetries sink metricKeys volume replication
        projectID w hb hr
    have hout : out' = out := by
      have h := hcut.symm.trans hcut'
      exact (Option.some.inj h).symm
    subst hout
    refine ⟨st, ext, hrun, hworld, ?_⟩
    intro req hreq
    rw [hcalls] at hreq
    obtain ⟨b, hbmem, rfl⟩ := mem_submissions _ _ _ _ _ _ hreq
    simpa [batchRequest] using hsize b hbmem
  · obtain ⟨st, out', ns, ext, hrun, hcut', hns, _, hworld, hcalls, _, _, _⟩ :=
      pushCustomMetricsWith_spec batchSize maxRetries sink [] volume replication
        projectID w hb hr
    have hout : out' = [] := (Option.some.inj hcut').symm
    subst hout
    refine ⟨st, hrun, ?_⟩
    rw [hworld, calls_append, hcalls]
    simp [submissions]

/-- Witness of C2: seven keys cut with `batchSize = 3`, with `maxRetries = 3`. -/
theorem batch_size_bound_witness :
    (1 ≤ 3) ∧ (1 ≤ 3) ∧
    (∃ batches, cutBatches ["a", "b", "c", "d", "e", "f", "g"] 3 = some batches ∧
      (∀ b ∈ batches.dropLast, b.length = 3) ∧
      (∀ b, batches.getLast? = some b → 1 ≤ b.length ∧ b.length ≤ 3) ∧
      (["a", "b", "c", "d", "e", "f", "g"] ≠ [] → batches ≠ [])) ∧
    (∃ st ext,
      pushCustomMetricsWith 3 3 rejectAll ["a", "b", "c", "d", "e", "f", "g"] exampleVolume
        exampleReplication "p" [] = some (st, none) ∧
      st.world = [] ++ ext ∧
      ∀ req ∈ calls ext, 1 ≤ req.TimeSeries.length ∧ req.TimeSeries.length ≤ 3) ∧
    cutBatches [] 3 = some [] ∧
    (∃ st,
      pushCustomMetricsWith 3 3 rejectAll [] exampleVolume exampleReplication "p" []
        = some (st, none) ∧
      calls st.world = calls []) :=
  ⟨by decide, by decide,
    batch_size_bound rejectAll exampleVolume exampleReplication "p" []
      ["a", "b", "c", "d", "e", "f", "g"] 3 3 (by decide) (by decide)⟩

/-! ## Retry (C3, C4) -/

/-- C3 (retry exhaustion): for every batch request and every `maxRetries ≥ 1` (the code
fixes 3), when the sink returns an error on each of the `maxRetries` attempts, the retry
loop terminates having called the sink exactly `maxRetries` times with that request,
leaves `successCount` unchanged and adds the length of the batch to `errorCount`. -/
theorem retry_exhaustion (sink : Sink) (req : CreateTimeSeriesRequest)
    (i batchSize maxRetries : Nat) (st : PushState) (hr : 1 ≤ maxRetries)
    (hfail : ∀ j, j < maxRetries → (sink (nCalls st.world + j) req).isSome) :
    ∃ st' ext, retryLoop sink req i batchSize maxRetries (maxRetries + 1) 0 st = some st' ∧
      st'.world = st.world ++ ext ∧
      calls ext = List.replicate maxRetries req ∧
      nCalls st'.world = nCalls st.world + maxRetries ∧
      st'.successCount = st.successCount ∧
      st'.errorCount = st.errorCount + req.TimeSeries.length := by
  obtain ⟨st', n, ext, hrun, h1, hn, hworld, hcalls, _, _, hcount⟩ :=
    retryLoop_spec sink req i batchSize maxRetries (maxRetries + 1) 0 st (by omega) (by omega)
  rcases hcount with ⟨_, _, hacc⟩ | ⟨hs, he, hn', _⟩
  · have h := hfail (n - 1) (by omega)
    rw [hacc (nCalls st.world + (n - 1)) (by omega)] at h
    exact absurd h (by simp)
  · have hn3 : n = maxRetries := by omega
    subst hn3
    refine ⟨st', ext, hrun, hworld, hcalls, ?_, hs, he⟩
    rw [hworld, nCalls_append]
    simp [nCalls, hcalls]

/-- Witness of C3: the batch of the three metrics, `maxRetries = 3`, a sink that rejects
every call. -/
theorem retry_exhaustion_witness :
    (1 ≤ 3) ∧
    (∀ j, j < 3 → (rejectAll (nCalls (PushState.mk [] 0 0).world + j)
      (batchRequest exampleVolume exampleReplication "p"
        (metricsData exampleVolume exampleReplication).keys)).isSome) ∧
    ∃ st' ext,
      retryLoop rejectAll
        (batchRequest exampleVolume exampleReplication "p"
          (metricsData exampleVolume exampleReplication).keys) 0 5 3 (3 + 1) 0
        (PushState.mk [] 0 0) = some st' ∧
      st'.world = (PushState.mk [] 0 0).world ++ ext ∧
      calls ext = List.replicate 3
        (batchRequest exampleVolume exampleReplication "p"
          (metricsData exampleVolume exampleReplication).keys) ∧
      nCalls st'.world = nCalls (PushState.mk [] 0 0).world + 3 ∧
      st'.successCount = (PushState.mk [] 0 0).successCount ∧
      st'.errorCount = (PushState.mk [] 0 0).errorCount +
        (batchRequest exampleVolume exampleReplication "p"
          (metricsData exampleVolume exampleReplication).keys).TimeSeries.length :=
  ⟨by decide, fun _ _ => rfl,
    retry_exhaustion rejectAll
      (batchRequest exampleVolume exampleReplication "p"
        (metricsData exampleVolume exampleReplication).keys) 0 5 3 (PushState.mk [] 0 0)
      (by decide) (fun _ _ => rfl)⟩

/-- C4 (retry recovery): for every batch request and every `k < maxRetries`, when the sink
rejects the first `k` attempts and accepts attempt `k + 1`, the retry loop terminates
having called the sink exactly `k + 1` times with that request, adds the length of the
batch to `successCount` and leaves `errorCount` unchanged. -/
theorem retry_recovery (sink : Sink) (req : CreateTimeSeriesRequest)
    (i batchSize maxRetries k : Nat) (st : PushState) (hk : k < maxRetries)
    (hfail : ∀ j, j < k → (sink (nCalls st.world + j) req).isSome)
    (hok : sink (nCalls st.world + k) req = none) :
    ∃ st' ext, retryLoop sink req i batchSize maxRetries (maxRetries + 1) 0 st = some st' ∧
      st'.world = st.world ++ ext ∧
      calls ext = List.replicate (k + 1) req ∧
      nCalls st'.world = nCalls st.world + (k + 1) ∧
      st'.successCount = st.successCount + req.TimeSeries.length ∧
      st'.errorCount = st.errorCount := by
  obtain ⟨st', n, ext, hrun, h1, hn, hworld, hcalls, _, hrej, hcount⟩ :=
    retryLoop_spec sink req i batchSize maxRetries (maxRetries + 1) 0 st (by omega) (by omega)
  have hkn : k + 1 = n := by
    rcases Nat.lt_trichotomy (k + 1) n with hlt | heq | hgt
    · have h := hrej k _ rfl hlt
      rw [hok] at h
      exact absurd h (by simp)
    · exact heq
    · exfalso
      have h := hfail (n - 1) (by omega)
      rcases hcount with ⟨_, _, hacc⟩ | ⟨_, _, hn', _⟩
      · rw [hacc (nCalls st.world + (n - 1)) (by omega)] at h
        exact absurd h (by simp)
      · omega
  subst hkn
  rcases hcount with ⟨hs, he, _⟩ | ⟨_, _, _, hrej'⟩
  · refine ⟨st', ext, hrun, hworld, hcalls, ?_, hs, he⟩
    rw [hworld, nCalls_append]
    simp [nCalls, hcalls]
  · have h := hrej' (nCalls st.world + k) (by omega)
    rw [hok] at h
    exact absurd h (by simp)

/-- Witness of C4: the batch of the three metrics, `maxRetries = 3`, a sink that rejects
two calls and accepts the third (`k = 2`). -/
theorem retry_recovery_witness :
    (2 < 3) ∧
    (∀ j, j < 2 → (rejectTwice (nCalls (PushState.mk [] 0 0).world + j)
      (batchRequest exampleVolume exampleReplication "p"
        (metricsData exampleVolume exampleReplication).keys)).isSome) ∧
    rejectTwice (nCalls (PushState.mk [] 0 0).world + 2)
      (batchRequest exampleVolume exampleReplication "p"
        (metricsData exampleVolume exampleReplication).keys) = none ∧
    ∃ st' ext,
      retryLoop rejectTwice
        (batchRequest exampleVolume exampleReplication "p"
          (metricsData exampleVolume exampleReplication).keys) 0 5 3 (3 + 1) 0
        (PushState.mk [] 0 0) = some st' ∧
      st'.world = (PushState.mk [] 0 0).world ++ ext ∧
      calls ext = List.replicate (2 + 1)
        (batchRequest exampleVolume exampleReplication "p"
          (metricsData exampleVolume exampleReplication).keys) ∧
      nCalls st'.world = nCalls (PushState.mk [] 0 0).world + (2 + 1) ∧
      st'.successCount = (PushState.mk [] 0 0).successCount +
        (batchRequest exampleVolume exampleReplication "p"
          (metricsData exampleVolume exampleReplication).keys).TimeSeries.length ∧
      st'.errorCount = (PushState.mk [] 0 0).errorCount :=
  ⟨by decide, by decide, by decide,
    retry_recovery rejectTwice
      (batchRequest exampleVolume exampleReplication "p"
        (metricsData exampleVolume exampleReplication).keys) 0 5 3 2 (PushState.mk [] 0 0)
      (by decide) (by decide) (by decide)⟩

/-! ## Accounting of one tick (C5) -/

/-- When the sink accepts the first call of the tick, a tick over three keys makes one
call, carrying the single batch of the three samples, and counts 3 accepted, 0 failed. -/
theorem pushCustomMetrics_accept_first (sink : Sink) (metricKeys : List String)
    (volume : Volume) (replication : VolumeReplication) (projectID : String) (w : World)
    (hlen : metricKeys.length = 3) (hacc : ∀ req, sink (nCalls w) req = none) :
    cutBatches metricKeys 5 = some [metricKeys] ∧
    ∃ st, pushCustomMetrics sink metricKeys volume replication projectID w = some (st, none) ∧
      calls st.world = calls w ++ [batchRequest volume replication projectID metricKeys] ∧
      st.successCount = 3 ∧ st.errorCount = 0 := by
  obtain ⟨a, b, c, rfl⟩ := List.length_eq_three.1 hlen
  refine ⟨by simp [cutBatches, cutBatchesFrom, batchEnd, List.range'], ?_⟩
  simp [pushCustomMetrics, pushCustomMetricsWith, pushLoop, retryLoop, batchEnd, hacc,
    mkRequest, batchRequest, List.range', calls_append, calls]

/-- C5 (tick accounting): for every sink, every slice of keys, every `batchSize ≥ 1` and
`maxRetries ≥ 1`, one tick terminates with `successCount + errorCount` equal to the
number of samples; the retry loop of a batch adds the full length of the batch to exactly
one of the two counters and nothing to the other. With the code's constants and the
entity `used_bytes = 500`, `size_in_bytes = 1000`, `transfer_bytes = 200`, whatever the
order in which the map yields its three keys, a sink that accepts the first call of the
tick receives exactly one call, the batch of the three samples, and the outcome is
3 accepted, 0 failed. -/
theorem tick_accounting (sink : Sink) (metricKeys : List String) (volume : Volume)
    (replication : VolumeReplication) (projectID : String) (w : World)
    (batchSize maxRetries : Nat) (hb : 1 ≤ batchSize) (hr : 1 ≤ maxRetries) :
    (∃ st, pushCustomMetricsWith batchSize maxRetries sink metricKeys volume replication
        projectID w = some (st, none) ∧
      st.successCount + st.errorCount = metricKeys.length) ∧
    (∀ (req : CreateTimeSeriesRequest) (i : Nat) (st : PushState),
      ∃ st', retryLoop sink req i batchSize maxRetries (maxRetries + 1) 0 st = some st' ∧
        ((st'.successCount = st.successCount + req.TimeSeries.length ∧
            st'.errorCount = st.errorCount) ∨
         (st'.successCount = st.successCount ∧
            st'.errorCount = st.errorCount + req.TimeSeries.length))) ∧
    (∀ (keys : List String) (sink1 : Sink),
      keys.Perm (metricsData exampleVolume exampleReplication).keys →
      (∀ req, sink1 (nCalls w) req = none) →
      cutBatches keys 5 = some [keys] ∧ keys.length = 3 ∧
      ∃ st, pushCustomMetrics sink1 keys exampleVolume exampleReplication projectID w
          = some (st, none) ∧
        calls st.world
          = calls w ++ [batchRequest exampleVolume exampleReplication projectID keys] ∧
        st.successCount = 3 ∧ st.errorCount = 0) := by
  refine ⟨?_, ?_, ?_⟩
  · obtain ⟨st, _, _, _, hrun, _, _, _, _, _, _, hsum, _⟩ :=
      pushCustomMetricsWith_spec batchSize maxRetries sink metricKeys volume replication
        projectID w hb hr
    exact ⟨st, hrun, hsum⟩
  · intro req i st
    obtain ⟨st', _, _, hrun, _, _, _, _, _, _, hcount⟩ :=
      retryLoop_spec sink req i batchSize maxRetries (maxRetries + 1) 0 st
        (by omega) (by omega)
    refine ⟨st', hrun, ?_⟩
    rcases hcount with ⟨hs, he, _⟩ | ⟨hs, he, _⟩
    · exact Or.inl ⟨hs, he⟩
    · exact Or.inr ⟨hs, he⟩
  · intro keys sink1 hperm hacc
    have hlen : keys.length = 3 := hperm.length_eq
    obtain ⟨hcut, hrun⟩ := pushCustomMetrics_accept_first sink1 keys exampleVolume
      exampleReplication projectID w hlen hacc
    exact ⟨hcut, hlen, hrun⟩

/-- Witness of C5: the code's constants `batchSize = 5`, `maxRetries = 3`, the scenario
entity and a sink that rejects every call. -/
theorem tick_accounting_witness :
    (1 ≤ 5) ∧ (1 ≤ 3) ∧
    (∃ st, pushCustomMetricsWith 5 3 rejectAll
        (metricsData exampleVolume exampleReplication).keys
        exampleVolume exampleReplication "p" [] = some (st, none) ∧
      st.successCount + st.errorCount
        = (metricsData exampleVolume exampleReplication).keys.length) ∧
    (∀ (req : CreateTimeSeriesRequest) (i : Nat) (st : PushState),
      ∃ st', retryLoop rejectAll req i 5 3 (3 + 1) 0 st = some st' ∧
        ((st'.successCount = st.successCount + req.TimeSeries.length ∧
            st'.errorCount = st.errorCount) ∨
         (st'.successCount = st.successCount ∧
            st'.errorCount = st.errorCount + req.TimeSeries.length))) ∧
    (∀ (keys : List String) (sink1 : Sink),
      keys.Perm (metricsData exampleVolume exampleReplication).keys →
      (∀ req, sink1 (nCalls []) req = none) →
      cutBatches keys 5 = some [keys] ∧ keys.length = 3 ∧
      ∃ st, pushCustomMetrics sink1 keys exampleVolume exampleReplication "p" []
          = some (st, none) ∧
        calls st.world
          = calls [] ++ [batchRequest exampleVolume exampleReplication "p" keys] ∧
        st.successCount = 3 ∧ st.errorCount = 0) :=
  ⟨by decide, by decide,
    tick_accounting rejectAll (metricsData exampleVolume exampleReplication).keys
      exampleVolume exampleReplication "p" [] 5 3 (by decide) (by decide)⟩

/-! ## Labels (C6) -/

/-- Every entry the sink receives during a tick is the entry built for one of the keys. -/
theorem submitted_entries (sink : Sink) (metricKeys : List String) (volume : Volume)
    (replication : VolumeReplication) (projectID : String) (w : World) :
    ∃ st ext, pushCustomMetrics sink metricKeys volume replication projectID w
        = some (st, none) ∧
      st.world = w ++ ext ∧
      ∀ req ∈ calls ext, ∀ ts ∈ req.TimeSeries,
        ∃ metricName ∈ metricKeys, ts = mkTimeSeries volume replication projectID metricName := by
  obtain ⟨st, out, ns, ext, hrun, hcut, _, _, hworld, hcalls, _, _, _⟩ :=
    pushCustomMetricsWith_spec 5 3 sink metricKeys volume replication projectID w
      (by decide) (by decide)
  obtain ⟨out', hcut', hflat, _, _, _, _⟩ :=
    cutBatchesFrom_spec metricKeys 5 (by decide) (metricKeys.length + 1) 0 (by omega)
  have hout : out' = out := Option.some.inj (hcut'.symm.trans hcut)
  subst hout
  rw [List.drop_zero] at hflat
  refine ⟨st, ext, hrun, hworld, ?_⟩
  intro req hreq ts hts
  rw [hcalls] at hreq
  obtain ⟨b, hbmem, rfl⟩ := mem_submissions _ _ _ _ _ _ hreq
  obtain ⟨name, hname, rfl⟩ := List.mem_map.1 hts
  refine ⟨name, ?_, rfl⟩
  rw [← hflat]
  exact List.mem_flatten.2 ⟨b, hbmem, hname⟩

/-- C6 (label attachment): for every volume, replication and project id, the entry built
for `snapmirror_total_transfer_bytes` carries the label `relationship_id` with the
replication's `ExternalUUID`; the entries built for `volume_capacity` and
`volume_space_logical_used` (and for any other metric name) carry no `relationship_id`
label; the entry of every metric name carries the six base labels `volume`, `datacenter`,
`cluster`, `project_id`, `deployment_name` and `project`; and every entry the sink
receives during a tick is such an entry, built for one of the keys. -/
theorem label_attachment (volume : Volume) (replication : VolumeReplication)
    (projectID : String) (metricName : String) :
    (mkTimeSeries volume replication projectID
        "snapmirror_total_transfer_bytes").Metric.Labels.get? "relationship_id"
      = some replication.ReplicationAttributes.ExternalUUID ∧
    (mkTimeSeries volume replication projectID
        "volume_capacity").Metric.Labels.get? "relationship_id" = none ∧
    (mkTimeSeries volume replication projectID
        "volume_space_logical_used").Metric.Labels.get? "relationship_id" = none ∧
    (metricName ≠ "snapmirror_total_transfer_bytes" →
      (mkTimeSeries volume replication projectID
        metricName).Metric.Labels.get? "relationship_id" = none) ∧
    ((mkTimeSeries volume replication projectID metricName).Metric.Labels.get? "volume"
        = some volume.Name ∧
      (mkTimeSeries volume replication projectID metricName).Metric.Labels.get? "datacenter"
        = some "australia-southeast1" ∧
      (mkTimeSeries volume replication projectID metricName).Metric.Labels.get? "cluster"
        = some "cluster-01" ∧
      (mkTimeSeries volume replication projectID metricName).Metric.Labels.get? "project_id"
        = some projectID ∧
      (mkTimeSeries volume replication projectID
        metricName).Metric.Labels.get? "deployment_name" = some volume.Pool.DeploymentName ∧
      (mkTimeSeries volume replication projectID metricName).Metric.Labels.get? "project"
        = some volume.Pool.Account.Name) ∧
    (∀ (sink : Sink) (metricKeys : List String) (w : World),
      ∃ st ext, pushCustomMetrics sink metricKeys volume replication projectID w
          = some (st, none) ∧
        st.world = w ++ ext ∧
        ∀ req ∈ calls ext, ∀ ts ∈ req.TimeSeries,
          ∃ name ∈ metricKeys, ts = mkTimeSeries volume replication projectID name) := by
  refine ⟨?_, ?_, ?_, ?_, ?_, ?_⟩
  · simp [mkTimeSeries, mkLabels, GoMap.set, GoMap.get?, List.lookup]
  · simp [mkTimeSeries, mkLabels, GoMap.get?, List.lookup]
  · simp [mkTimeSeries, mkLabels, GoMap.get?, List.lookup]
  · intro h
    simp [mkTimeSeries, mkLabels, GoMap.get?, List.lookup, h]
  · by_cases h : metricName = "snapmirror_total_transfer_bytes" <;>
      simp [mkTimeSeries, mkLabels, GoMap.set, GoMap.get?, List.lookup, h]
  · intro sink metricKeys w
    exact submitted_entries sink metricKeys volume replication projectID w

/-! ## The emission loop (C7, C8) -/

/-- The emission loop never leaves `for { ... }`: after `n` iterations it is still
running, has completed `n` ticks and has slept the full interval after each of them. -/
theorem sendMetricsLoopFrom_running (sink : Sink) (order : Nat → List String)
    (volume : Volume) (replication : VolumeReplication) (projectID : String) :
    ∀ (n tick : Nat) (w : World),
      ∃ ext, sendMetricsLoopFrom sink order volume replication projectID n tick w
          = LoopOutcome.running (w ++ ext) ∧
        ticks ext = n ∧ n * 300000 ≤ slept ext := by
  intro n
  induction n with
  | zero => intro tick w; exact ⟨[], by simp [sendMetricsLoopFrom], rfl, by simp [slept]⟩
  | succ n ih =>
    intro tick w
    obtain ⟨st, _, _, ext1, hrun, _, _, _, hworld, _, hticks, _, _⟩ :=
      pushCustomMetricsWith_spec 5 3 sink (order tick) volume replication projectID w
        (by decide) (by decide)
    obtain ⟨ext2, hloop, hticks2, hslept2⟩ := ih (tick + 1) (st.world ++ [Event.sleep 300000])
    refine ⟨ext1 ++ [Event.sleep 300000] ++ ext2, ?_, ?_, ?_⟩
    · simp only [sendMetricsLoopFrom, pushCustomMetrics, hrun, hloop]
      rw [hworld]
      simp only [List.append_assoc]
    · simp [ticks_append, ticks, hticks, hticks2]; omega
    · simp only [slept_append, slept]; omega

/-- C7 (submission errors are absorbed): for every sink, every key order and every trace,
`pushCustomMetrics` terminates and returns a `nil` error, and the sink receives every
batch cut from the keys, in order, each between 1 and 3 times, so a failed batch does
not end the tick; when the sink rejects every call each batch is still attempted 3 times
and every sample is counted as failed; and for every `n` the loop of `sendMetricsLoop`
is still running after `n` iterations, having completed `n` ticks. -/
theorem submission_errors_absorbed (sink : Sink) (metricKeys : List String) (volume : Volume)
    (replication : VolumeReplication) (projectID : String) (w : World)
    (order : Nat → List String) (n : Nat) :
    (∃ st out ns ext,
      pushCustomMetrics sink metricKeys volume replication projectID w = some (st, none) ∧
      cutBatches metricKeys 5 = some out ∧
      ns.length = out.length ∧
      (∀ m ∈ ns, 1 ≤ m ∧ m ≤ 3) ∧
      st.world = w ++ ext ∧
      calls ext = submissions volume replication projectID ns out ∧
      ((∀ c req, (sink c req).isSome) →
        ns = List.replicate out.length 3 ∧ st.successCount = 0 ∧
        st.errorCount = metricKeys.length)) ∧
    (∃ ext, sendMetricsLoop none sink order volume replication projectID n w
        = LoopOutcome.running (w ++ ext) ∧
      ticks ext = n) := by
  constructor
  · obtain ⟨st, out, ns, ext, hrun, hcut, hns, hbound, hworld, hcalls, _, _, hall⟩ :=
      pushCustomMetricsWith_spec 5 3 sink metricKeys volume replication projectID w
        (by decide) (by decide)
    exact ⟨st, out, ns, ext, hrun, hcut, hns, hbound, hworld, hcalls, hall⟩
  · obtain ⟨ext, hloop, hticks, _⟩ :=
      sendMetricsLoopFrom_running sink order volume replication projectID n 0 w
    exact ⟨ext, hloop, hticks⟩

/-- C8, as stated, fails: started on a trace in which `cancel()` has already happened,
the loop of `sendMetricsLoop` is still running after two iterations, has run two further
ticks (two sink calls) and has slept two full intervals of 5 minutes. -/
theorem cancellation_not_observed :
    cancelled [Event.cancel] ∧
    ∃ w, sendMetricsLoop none acceptAll
        (fun _ => (metricsData exampleVolume exampleReplication).keys)
        exampleVolume exampleReplication "p" 2 [Event.cancel] = LoopOutcome.running w ∧
      ticks w = 2 ∧ nCalls w = 2 ∧ slept w = 600000 :=
  ⟨by decide, _, rfl, by decide, by decide, by decide⟩

/-- C8, amended: `sendMetricsLoop` reads no cancellation signal. On every trace,
cancelled or not, and for every sink, after `n` iterations its loop is still running, has
completed exactly `n` further ticks and has slept at least `n` full intervals of
5 minutes; it never returns. -/
theorem emission_loop_ignores_cancellation (sink : Sink) (order : Nat → List String)
    (volume : Volume) (replication : VolumeReplication) (projectID : String) (n : Nat)
    (w : World) :
    (∃ ext, sendMetricsLoop none sink order volume replication projectID n w
        = LoopOutcome.running (w ++ ext) ∧
      ticks ext = n ∧ n * 300000 ≤ slept ext) ∧
    (∀ w', sendMetricsLoop none sink order volume replication projectID n w
        ≠ LoopOutcome.returned w') ∧
    (∃ ext, sendMetricsLoop none sink order volume replication projectID n (w ++ [Event.cancel])
        = LoopOutcome.running (w ++ [Event.cancel] ++ ext) ∧
      ticks ext = n ∧ n * 300000 ≤ slept ext) := by
  obtain ⟨ext, hloop, hticks, hslept⟩ :=
    sendMetricsLoopFrom_running sink order volume replication projectID n 0 w
  refine ⟨⟨ext, hloop, hticks, hslept⟩, ?_, ?_⟩
  · intro w' h
    have hloop' : sendMetricsLoop none sink order volume replication projectID n w
        = LoopOutcome.running (w ++ ext) := hloop
    rw [hloop'] at h
    exact LoopOutcome.noConfusion h
  · exact sendMetricsLoopFrom_running sink order volume replication projectID n 0
      (w ++ [Event.cancel])

/-! ## Shutdown (C9) -/

/-- The teardown loop only appends delete events to the trace. -/
theorem cleanupAllResourcesOver_trace (volumes : List Volume)
    (replications : List VolumeReplication) (pools : List Pool) (svms : List Svm)
    (accounts : List Account) :
    ∀ (is : List Nat) (w : World),
      ∃ deletes, (∀ e ∈ deletes, ∃ t id, e = Event.delete t id) ∧
        (cleanupAllResourcesOver volumes replications pools svms accounts is w).1
          = w ++ deletes := by
  intro is
  induction is with
  | nil => intro w; exact ⟨[], by simp, by simp [cleanupAllResourcesOver]⟩
  | cons i rest ih =>
    intro w
    cases hargs : cleanupArgs volumes replications pools svms accounts i with
    | error p => exact ⟨[], by simp, by simp [cleanupAllResourcesOver, hargs]⟩
    | ok args =>
      obtain ⟨volume, replication, pool, svm, account⟩ := args
      obtain ⟨deletes, hdel, htrace⟩ :=
        ih (cleanupResources volume replication pool svm account w)
      refine ⟨[ Event.delete Table.replication replication.ID,
          Event.delete Table.volume volume.ID, Event.delete Table.svm svm.ID,
          Event.delete Table.pool pool.ID, Event.delete Table.account account.ID ] ++ deletes,
        ?_, ?_⟩
      · intro e he
        rcases List.mem_append.1 he with he | he
        · simp only [List.mem_cons, List.mem_singleton, List.not_mem_nil, or_false] at he
          rcases he with rfl | rfl | rfl | rfl | rfl <;> exact ⟨_, _, rfl⟩
        · exact hdel e he
      · simp only [cleanupAllResourcesOver, hargs]
        rw [htrace]
        simp only [cleanupResources, List.append_assoc]

/-- C9, as stated, fails: with one volume and a `client.Close()` that succeeds, the
handler deletes the five records and closes the client before it calls `cancel()`, so a
record is deleted while no cancellation has been signalled; with a `client.Close()` that
fails, the handler returns without `cancel()` and without `os.Exit(0)`. -/
theorem shutdown_order_counterexample :
    signalHandler [exampleVolume] [exampleReplication] [exampleVolume.Pool] [Svm.mk 5]
        [exampleVolume.Pool.Account] none []
      = ([ Event.log LogLine.interrupt,
           Event.delete Table.replication 4, Event.delete Table.volume 1,
           Event.delete Table.svm 5, Event.delete Table.pool 2,
           Event.delete Table.account 3,
           Event.closeClient none, Event.cancel, Event.exit 0 ],
         HandlerOutcome.exited 0) ∧
    ¬ cancelled [Event.log LogLine.interrupt, Event.delete Table.replication 4] ∧
    signalHandler [exampleVolume] [exampleReplication] [exampleVolume.Pool] [Svm.mk 5]
        [exampleVolume.Pool.Account] (some "close failed") []
      = ([ Event.log LogLine.interrupt,
           Event.delete Table.replication 4, Event.delete Table.volume 1,
           Event.delete Table.svm 5, Event.delete Table.pool 2,
           Event.delete Table.account 3,
           Event.closeClient (some "close failed") ],
         HandlerOutcome.returned) :=
  ⟨by decide, by decide, by decide⟩

/-- C9, amended: on receipt of the signal, whenever the teardown runs to its end, the
handler performs in this order (1) the teardown `cleanupAllResources`, which only deletes
records, (2) `client.Close()`, and, when `Close` returns no error, (3) `cancel()` and
(4) `os.Exit(0)`; cancellation is signalled after the last delete. -/
theorem shutdown_sequence (volumes : List Volume) (replications : List VolumeReplication)
    (pools : List Pool) (svms : List Svm) (accounts : List Account) (w : World)
    (hclean : (cleanupAllResources volumes replications pools svms accounts
      (w ++ [Event.log LogLine.interrupt])).2 = none) :
    ∃ deletes, (∀ e ∈ deletes, ∃ t id, e = Event.delete t id) ∧
      signalHandler volumes replications pools svms accounts none w
        = (w ++ [Event.log LogLine.interrupt] ++ deletes ++
            [Event.closeClient none, Event.cancel, Event.exit 0],
          HandlerOutcome.exited 0) := by
  obtain ⟨deletes, hdel, htrace⟩ :=
    cleanupAllResourcesOver_trace volumes replications pools svms accounts
      (List.range volumes.length) (w ++ [Event.log LogLine.interrupt])
  refine ⟨deletes, hdel, ?_⟩
  have hfst : (cleanupAllResources volumes replications pools svms accounts
      (w ++ [Event.log LogLine.interrupt])).1
        = w ++ [Event.log LogLine.interrupt] ++ deletes := htrace
  rcases hres : cleanupAllResources volumes replications pools svms accounts
      (w ++ [Event.log LogLine.interrupt]) with ⟨w2, p⟩
  rw [hres] at hclean hfst
  simp only at hclean hfst
  subst hclean
  subst hfst
  simp only [signalHandler, hres, List.append_assoc, List.singleton_append]

/-- Witness of C9 amended: one volume, one replication, one pool, one svm, one account. -/
theorem shutdown_sequence_witness :
    (cleanupAllResources [exampleVolume] [exampleReplication] [exampleVolume.Pool]
      [Svm.mk 5] [exampleVolume.Pool.Account] ([] ++ [Event.log LogLine.interrupt])).2 = none ∧
    ∃ deletes, (∀ e ∈ deletes, ∃ t id, e = Event.delete t id) ∧
      signalHandler [exampleVolume] [exampleReplication] [exampleVolume.Pool] [Svm.mk 5]
          [exampleVolume.Pool.Account] none []
        = ([] ++ [Event.log LogLine.interrupt] ++ deletes ++
            [Event.closeClient none, Event.cancel, Event.exit 0],
          HandlerOutcome.exited 0) :=
  ⟨by decide,
    shutdown_sequence [exampleVolume] [exampleReplication] [exampleVolume.Pool] [Svm.mk 5]
      [exampleVolume.Pool.Account] [] (by decide)⟩

/-! ## Order of the samples (C10) -/

/-- The sizes of the batches cut by the loop depend only on the number of keys. -/
theorem cutBatchesFrom_lengths (keys1 keys2 : List String) (batchSize : Nat)
    (hlen : keys1.length = keys2.length) :
    ∀ (fuel i : Nat),
      (cutBatchesFrom keys1 batchSize fuel i).map (List.map List.length)
        = (cutBatchesFrom keys2 batchSize fuel i).map (List.map List.length) := by
  intro fuel
  induction fuel with
  | zero => intro i; rfl
  | succ fuel ih =>
    intro i
    have h := ih (i + batchSize)
    by_cases hi : i < keys2.length
    · simp only [cutBatchesFrom, hlen, if_pos hi]
      cases h1 : cutBatchesFrom keys1 batchSize fuel (i + batchSize) <;>
        cases h2 : cutBatchesFrom keys2 batchSize fuel (i + batchSize) <;>
        simp [h1, h2] at h ⊢
      exact h
    · simp only [cutBatchesFrom, hlen, if_neg hi]

/-- C10, as stated, fails: the three keys of the sample mapping iterated in two orders,
both permutations of the key set, give different batches and different requests to the
sink. -/
theorem partitioning_depends_on_iteration_order :
    List.Perm
      ["snapmirror_total_transfer_bytes", "volume_capacity", "volume_space_logical_used"]
      (metricsData exampleVolume exampleReplication).keys ∧
    List.Perm
      ["volume_space_logical_used", "volume_capacity", "snapmirror_total_transfer_bytes"]
      (metricsData exampleVolume exampleReplication).keys ∧
    cutBatches
      ["snapmirror_total_transfer_bytes", "volume_capacity", "volume_space_logical_used"] 5
      ≠ cutBatches
      ["volume_space_logical_used", "volume_capacity", "snapmirror_total_transfer_bytes"] 5 ∧
    (pushCustomMetrics acceptAll
        ["snapmirror_total_transfer_bytes", "volume_capacity", "volume_space_logical_used"]
        exampleVolume exampleReplication "p" []).map (fun r => calls r.1.world)
      ≠ (pushCustomMetrics acceptAll
        ["volume_space_logical_used", "volume_capacity", "snapmirror_total_transfer_bytes"]
        exampleVolume exampleReplication "p" []).map (fun r => calls r.1.world) :=
  ⟨by decide, by decide, by decide, by decide⟩

/-- C10, amended: `pushCustomMetrics` takes the samples in the order in which the map
iteration yields the keys and cuts that order into consecutive batches. For two ticks on
the same sample mapping, whatever the two iteration orders, the loop cuts the same number
of batches with the same sizes, and the batches of the two ticks hold the same samples
up to their order. With the code's three keys and `batchSize = 5` each tick cuts a single
batch, the keys in the iteration order of that tick. -/
theorem partitioning_up_to_order {V : Type} (m : GoMap V) (keys1 keys2 : List String)
    (batchSize : Nat) (h1 : keys1.Perm m.keys) (h2 : keys2.Perm m.keys)
    (hb : 1 ≤ batchSize) :
    (∃ b1 b2, cutBatches keys1 batchSize = some b1 ∧ cutBatches keys2 batchSize = some b2 ∧
      b1.flatten = keys1 ∧ b2.flatten = keys2 ∧
      b1.map List.length = b2.map List.length ∧
      b1.flatten.Perm b2.flatten) ∧
    (∀ (volume : Volume) (replication : VolumeReplication) (keys : List String),
      keys.Perm (metricsData volume replication).keys → cutBatches keys 5 = some [keys]) := by
  constructor
  · obtain ⟨b1, hcut1, hflat1, _⟩ :=
      cutBatchesFrom_spec keys1 batchSize hb (keys1.length + 1) 0 (by omega)
    obtain ⟨b2, hcut2, hflat2, _⟩ :=
      cutBatchesFrom_spec keys2 batchSize hb (keys2.length + 1) 0 (by omega)
    rw [List.drop_zero] at hflat1 hflat2
    have hlen : keys1.length = keys2.length := (h1.trans h2.symm).length_eq
    refine ⟨b1, b2, hcut1, hcut2, hflat1, hflat2, ?_, ?_⟩
    · have h := cutBatchesFrom_lengths keys1 keys2 batchSize hlen (keys1.length + 1) 0
      rw [hcut1, hlen, hcut2] at h
      exact Option.some.inj h
    · rw [hflat1, hflat2]
      exact h1.trans h2.symm
  · intro volume replication keys hperm
    have hlen : keys.length = 3 := hperm.length_eq
    obtain ⟨a, b, c, rfl⟩ := List.length_eq_three.1 hlen
    simp [cutBatches, cutBatchesFrom, batchEnd, List.range']

/-- Witness of C10 amended: the sample mapping of the scenario iterated in two orders,
cut with `batchSize = 2`. -/
theorem partitioning_up_to_order_witness :
    List.Perm
      ["snapmirror_total_transfer_bytes", "volume_capacity", "volume_space_logical_used"]
      (metricsData exampleVolume exampleReplication).keys ∧
    List.Perm
      ["volume_space_logical_used", "volume_capacity", "snapmirror_total_transfer_bytes"]
      (metricsData exampleVolume exampleReplication).keys ∧
    (1 ≤ 2) ∧
    (∃ b1 b2,
      cutBatches
        ["snapmirror_total_transfer_bytes", "volume_capacity", "volume_space_logical_used"] 2
        = some b1 ∧
      cutBatches
        ["volume_space_logical_used", "volume_capacity", "snapmirror_total_transfer_bytes"] 2
        = some b2 ∧
      b1.flatten
        = ["snapmirror_total_transfer_bytes", "volume_capacity", "volume_space_logical_used"] ∧
      b2.flatten
        = ["volume_space_logical_used", "volume_capacity", "snapmirror_total_transfer_bytes"] ∧
      b1.map List.length = b2.map List.length ∧
      b1.flatten.Perm b2.flatten) ∧
    (∀ (volume : Volume) (replication : VolumeReplication) (keys : List String),
      keys.Perm (metricsData volume replication).keys → cutBatches keys 5 = some [keys]) :=
  ⟨by decide, by decide, by decide,
    partitioning_up_to_order (metricsData exampleVolume exampleReplication)
      ["snapmirror_total_transfer_bytes", "volume_capacity", "volume_space_logical_used"]
      ["volume_space_logical_used", "volume_capacity", "snapmirror_total_transfer_bytes"] 2
      (by decide) (by decide) (by decide)⟩

/-! ## Teardown coverage (C11) -/

/-- On slices of the shape of the claim, the arguments of iteration `i` are evaluated
without a panic: no index is out of range and no divisor is zero. -/
theorem cleanupArgs_ok (volumes : List Volume) (replications : List VolumeReplication)
    (pools : List Pool) (svms : List Svm) (accounts : List Account) (i : Nat)
    (hi : i < volumes.length) (hrep : replications.length = volumes.length)
    (hsvm : svms.length = pools.length) (hpool : 1 ≤ pools.length) (hacc : accounts ≠ []) :
    ∃ v r p s a, volumes[i]? = some v ∧ replications[i]? = some r ∧
      pools[i % pools.length]? = some p ∧ svms[i % svms.length]? = some s ∧
      accounts[0]? = some a ∧
      cleanupArgs volumes replications pools svms accounts i = Except.ok (v, r, p, s, a) := by
  have hpi : i % pools.length < pools.length := Nat.mod_lt _ (by omega)
  have hsi : i % svms.length < svms.length := Nat.mod_lt _ (by omega)
  have hv : volumes[i]? = some volumes[i] := List.getElem?_eq_getElem hi
  have hi' : i < replications.length := by omega
  have hr : replications[i]? = some replications[i] := List.getElem?_eq_getElem hi'
  have hp : pools[i % pools.length]? = some pools[i % pools.length] :=
    List.getElem?_eq_getElem hpi
  have hs : svms[i % svms.length]? = some svms[i % svms.length] :=
    List.getElem?_eq_getElem hsi
  obtain ⟨a, rest, rfl⟩ := List.exists_cons_of_ne_nil hacc
  refine ⟨_, _, _, _, a, hv, hr, hp, hs, List.getElem?_cons_zero, ?_⟩
  have hp0 : pools.length ≠ 0 := by omega
  have hs0 : svms.length ≠ 0 := by omega
  simp only [cleanupArgs, index, goMod, hv, hr, hp, hs, hp0, hs0, if_false, bind, Except.bind,
    pure, Except.pure, List.getElem?_cons_zero]

/-- When no iteration panics, the loop of the teardown ends without a panic and appends
the deletes of its iterations, in order. -/
theorem cleanupAllResourcesOver_ok (volumes : List Volume)
    (replications : List VolumeReplication) (pools : List Pool) (svms : List Svm)
    (accounts : List Account) :
    ∀ (is : List Nat) (w : World),
      (∀ i ∈ is, ∃ args, cleanupArgs volumes replications pools svms accounts i
        = Except.ok args) →
      cleanupAllResourcesOver volumes replications pools svms accounts is w
        = (w ++ (is.map (cleanupEvents volumes replications pools svms accounts)).flatten,
            none) := by
  intro is
  induction is with
  | nil => intro w _; simp [cleanupAllResourcesOver]
  | cons i rest ih =>
    intro w hok
    obtain ⟨⟨volume, replication, pool, svm, account⟩, hargs⟩ := hok i (List.mem_cons_self _ _)
    have hrest := ih (cleanupResources volume replication pool svm account w)
      (fun j hj => hok j (List.mem_cons_of_mem _ hj))
    simp only [cleanupAllResourcesOver, hargs]
    rw [hrest]
    simp only [List.map_cons, List.flatten_cons, cleanupEvents, hargs, cleanupResources,
      List.nil_append, List.append_assoc]

/-- On slices of the shape of the claim, iteration `i` deletes, in this order, the
replication and the volume of index `i`, the svm and the pool of index `i % len`, and the
first account. -/
theorem cleanupEvents_eq (volumes : List Volume) (replications : List VolumeReplication)
    (pools : List Pool) (svms : List Svm) (accounts : List Account) (i : Nat)
    (hi : i < volumes.length) (hrep : replications.length = volumes.length)
    (hsvm : svms.length = pools.length) (hpool : 1 ≤ pools.length) (hacc : accounts ≠ []) :
    ∃ v r p s a, volumes[i]? = some v ∧ replications[i]? = some r ∧
      pools[i % pools.length]? = some p ∧ svms[i % svms.length]? = some s ∧
      accounts[0]? = some a ∧
      cleanupEvents volumes replications pools svms accounts i
        = [ Event.delete Table.replication r.ID, Event.delete Table.volume v.ID,
            Event.delete Table.svm s.ID, Event.delete Table.pool p.ID,
            Event.delete Table.account a.ID ] := by
  obtain ⟨v, r, p, s, a, hv, hr, hp, hs, ha, hargs⟩ :=
    cleanupArgs_ok volumes replications pools svms accounts i hi hrep hsvm hpool hacc
  refine ⟨v, r, p, s, a, hv, hr, hp, hs, ha, ?_⟩
  simp only [cleanupEvents, hargs, cleanupResources, List.nil_append]

/-- The deletes of iteration `i < len(volumes)` are among the deletes of the teardown. -/
theorem mem_teardownDeletes (volumes : List Volume) (replications : List VolumeReplication)
    (pools : List Pool) (svms : List Svm) (accounts : List Account) (i : Nat) (e : Event)
    (hi : i < volumes.length)
    (he : e ∈ cleanupEvents volumes replications pools svms accounts i) :
    e ∈ teardownDeletes volumes replications pools svms accounts :=
  List.mem_flatten.2 ⟨_, List.mem_map.2 ⟨i, List.mem_range.2 hi, rfl⟩, he⟩

/-- The loop over the volumes of one pool, when it ends without error, has added one
volume and one replication per iteration and nothing else. -/
theorem setupVolumes_shape (s : Store) (account : Account) (pool : Pool) (svm : Svm) :
    ∀ (vs : List Nat) (res : Resources) (k : Counters) (res' : Resources) (k' : Counters),
      setupVolumes s account pool svm vs res k = Except.ok (res', k') →
      res'.accounts = res.accounts ∧ res'.pools = res.pools ∧ res'.svms = res.svms ∧
      res'.volumes.length = res.volumes.length + vs.length ∧
      res'.replications.length = res.replications.length + vs.length := by
  intro vs
  induction vs with
  | nil =>
    intro res k res' k' h
    simp only [setupVolumes, Except.ok.injEq, Prod.mk.injEq] at h
    obtain ⟨rfl, _⟩ := h
    simp
  | cons v vs ih =>
    intro res k res' k' h
    simp only [setupVolumes] at h
    cases hv : CreateVolume s account pool svm "volume" k with
    | error e => simp [hv] at h
    | ok vk =>
      obtain ⟨volume, k1⟩ := vk
      simp only [hv] at h
      cases hr : CreateReplication s account volume "replication" k1 with
      | error e => simp [hr] at h
      | ok rk =>
        obtain ⟨replication, k2⟩ := rk
        simp only [hr] at h
        obtain ⟨ha, hp, hs, hvl, hrl⟩ := ih _ _ _ _ h
        refine ⟨ha, hp, hs, ?_, ?_⟩
        · rw [hvl]; simp only [List.length_append, List.length_cons, List.length_nil]; omega
        · rw [hrl]; simp only [List.length_append, List.length_cons, List.length_nil]; omega

/-- The loop over the pools of one tenant project, when it ends without error, has added
one pool and one svm per iteration, and `numVolumesEachPool` volumes and replications per
iteration. -/
theorem setupPools_shape (s : Store) (account : Account) (tenantProjects : List String)
    (numVolumesEachPool t : Nat) :
    ∀ (ps : List Nat) (res : Resources) (k : Counters) (res' : Resources) (k' : Counters),
      setupPools s account tenantProjects numVolumesEachPool t ps res k
        = Except.ok (res', k') →
      res'.accounts = res.accounts ∧
      res'.pools.length = res.pools.length + ps.length ∧
      res'.svms.length = res.svms.length + ps.length ∧
      res'.volumes.length = res.volumes.length + ps.length * numVolumesEachPool ∧
      res'.replications.length
        = res.replications.length + ps.length * numVolumesEachPool := by
  intro ps
  induction ps with
  | nil =>
    intro res k res' k' h
    simp only [setupPools, Except.ok.injEq, Prod.mk.injEq] at h
    obtain ⟨rfl, _⟩ := h
    simp
  | cons p ps ih =>
    intro res k res' k' h
    simp only [setupPools] at h
    cases ht : index tenantProjects t with
    | error e => simp [ht] at h
    | ok tenantProject =>
      simp only [ht] at h
      cases hp : CreatePool s account "pool" tenantProject k with
      | error e => simp [hp] at h
      | ok pk =>
        obtain ⟨pool, k1⟩ := pk
        simp only [hp] at h
        cases hs : CreateSvm s account pool "svm" k1 with
        | error e => simp [hs] at h
        | ok sk =>
          obtain ⟨svm, k2⟩ := sk
          simp only [hs] at h
          cases hv : setupVolumes s account pool svm (List.range numVolumesEachPool)
              { res with pools := res.pools ++ [pool], svms := res.svms ++ [svm] } k2 with
          | error e => simp [hv] at h
          | ok rk =>
            obtain ⟨res1, k3⟩ := rk
            simp only [hv] at h
            obtain ⟨ha1, hp1, hs1, hv1, hr1⟩ := setupVolumes_shape _ _ _ _ _ _ _ _ _ hv
            obtain ⟨ha, hpl, hsl, hvl, hrl⟩ := ih _ _ _ _ h
            simp only [List.length_range] at hv1 hr1
            refine ⟨ha.trans ha1, ?_, ?_, ?_, ?_⟩
            · rw [hpl, hp1]
              simp only [List.length_append, List.length_cons, List.length_nil]; omega
            · rw [hsl, hs1]
              simp only [List.length_append, List.length_cons, List.length_nil]; omega
            · rw [hvl, hv1, List.length_cons, Nat.succ_mul]; omega
            · rw [hrl, hr1, List.length_cons, Nat.succ_mul]; omega

/-- The loop over the tenant projects, when it ends without error, has added
`numPoolsEachTP` pools and svms per iteration, and `numPoolsEachTP * numVolumesEachPool`
volumes and replications per iteration. -/
theorem setupTPs_shape (s : Store) (account : Account) (tenantProjects : List String)
    (numPoolsEachTP numVolumesEachPool : Nat) :
    ∀ (ts : List Nat) (res : Resources) (k : Counters) (res' : Resources) (k' : Counters),
      setupTPs s account tenantProjects numPoolsEachTP numVolumesEachPool ts res k
        = Except.ok (res', k') →
      res'.accounts = res.accounts ∧
      res'.pools.length = res.pools.length + ts.length * numPoolsEachTP ∧
      res'.svms.length = res.svms.length + ts.length * numPoolsEachTP ∧
      res'.volumes.length
        = res.volumes.length + ts.length * (numPoolsEachTP * numVolumesEachPool) ∧
      res'.replications.length
        = res.replications.length + ts.length * (numPoolsEachTP * numVolumesEachPool) := by
  intro ts
  induction ts with
  | nil =>
    intro res k res' k' h
    simp only [setupTPs, Except.ok.injEq, Prod.mk.injEq] at h
    obtain ⟨rfl, _⟩ := h
    simp
  | cons t ts ih =>
    intro res k res' k' h
    simp only [setupTPs] at h
    cases hp : setupPools s account tenantProjects numVolumesEachPool t
        (List.range numPoolsEachTP) res k with
    | error e => simp [hp] at h
    | ok rk =>
      obtain ⟨res1, k1⟩ := rk
      simp only [hp] at h
      obtain ⟨ha1, hp1, hs1, hv1, hr1⟩ := setupPools_shape _ _ _ _ _ _ _ _ _ _ hp
      obtain ⟨ha, hpl, hsl, hvl, hrl⟩ := ih _ _ _ _ h
      simp only [List.length_range] at hp1 hs1 hv1 hr1
      refine ⟨ha.trans ha1, ?_, ?_, ?_, ?_⟩
      · rw [hpl, hp1, List.length_cons, Nat.succ_mul]; omega
      · rw [hsl, hs1, List.length_cons, Nat.succ_mul]; omega
      · rw [hvl, hv1, List.length_cons, Nat.succ_mul]; omega
      · rw [hrl, hr1, List.length_cons, Nat.succ_mul]; omega

/-- The slices `setupResources` returns: one account, `numTPs * numPoolsEachTP` pools and
as many svms, `numTPs * numPoolsEachTP * numVolumesEachPool` volumes and as many
replications. -/
theorem setupResources_shape (s : Store) (ConsumerProjectID : String)
    (tps : Except String (List String)) (numTPs numPoolsEachTP numVolumesEachPool : Nat)
    (res : Resources)
    (h : setupResources s ConsumerProjectID tps numTPs numPoolsEachTP numVolumesEachPool
      = Except.ok res) :
    res.accounts.length = 1 ∧
    res.pools.length = numTPs * numPoolsEachTP ∧
    res.svms.length = numTPs * numPoolsEachTP ∧
    res.volumes.length = numTPs * (numPoolsEachTP * numVolumesEachPool) ∧
    res.replications.length = numTPs * (numPoolsEachTP * numVolumesEachPool) := by
  simp only [setupResources] at h
  cases hacc : CreateAccount s ConsumerProjectID { uuids := 0, creates := 0 } with
  | error e => simp [hacc] at h
  | ok ak =>
    obtain ⟨account, k⟩ := ak
    simp only [hacc] at h
    cases tps with
    | error e => simp at h
    | ok tenantProjects =>
      simp only at h
      by_cases hlen : tenantProjects.length = 0
      · simp [hlen] at h
      · simp only [if_neg hlen] at h
        cases hrun : setupTPs s account tenantProjects numPoolsEachTP numVolumesEachPool
            (List.range numTPs)
            { accounts := [account], pools := [], svms := [], volumes := [],
              replications := [] } k with
        | error e => simp [hrun] at h
        | ok rk =>
          obtain ⟨res1, k1⟩ := rk
          simp only [hrun, Except.ok.injEq] at h
          subst h
          obtain ⟨ha, hp, hs, hv, hr⟩ := setupTPs_shape _ _ _ _ _ _ _ _ _ _ hrun
          simp only [List.length_range, List.length_nil, Nat.zero_add] at hp hs hv hr
          exact ⟨by rw [ha]; rfl, hp, hs, hv, hr⟩

/-- With a store whose creates succeed and the default flags 1, 2, 3, `setupResources`
returns 1 account, 2 pools, 2 svms, 6 volumes and 6 replications. -/
theorem setupResources_example :
    ∃ res, setupResources exampleStore "vsa-billing-09" (Except.ok ["tenant-1"]) 1 2 3
        = Except.ok res ∧
      res.accounts.length = 1 ∧ res.pools.length = 2 ∧ res.svms.length = 2 ∧
      res.volumes.length = 6 ∧ res.replications.length = 6 :=
  ⟨_, rfl, rfl, rfl, rfl, rfl, rfl⟩

/-- C11 (teardown coverage): for all slices with `len(replications) = len(volumes)`,
`len(svms) = len(pools) ≥ 1`, `len(volumes) ≥ len(pools)` and a non-empty `accounts`,
`cleanupAllResources` ends without a panic (no index out of range, no division by zero);
iteration `i` deletes, in this order, the replication and the volume of index `i`, the svm
and the pool of index `i % len` and `accounts[0]`; over the whole run a delete is issued
for every volume, every replication, every pool, every svm and for `accounts[0]`. The
slices `setupResources` returns when the three flags are at least 1 have this shape. -/
theorem teardown_coverage (volumes : List Volume) (replications : List VolumeReplication)
    (pools : List Pool) (svms : List Svm) (accounts : List Account) (w : World)
    (hrep : replications.length = volumes.length) (hsvm : svms.length = pools.length)
    (hpool : 1 ≤ pools.length) (hvol : pools.length ≤ volumes.length)
    (hacc : accounts ≠ []) :
    cleanupAllResources volumes replications pools svms accounts w
      = (w ++ teardownDeletes volumes replications pools svms accounts, none) ∧
    (∀ i, i < volumes.length →
      ∃ v r p s a, volumes[i]? = some v ∧ replications[i]? = some r ∧
        pools[i % pools.length]? = some p ∧ svms[i % svms.length]? = some s ∧
        accounts[0]? = some a ∧
        cleanupEvents volumes replications pools svms accounts i
          = [ Event.delete Table.replication r.ID, Event.delete Table.volume v.ID,
              Event.delete Table.svm s.ID, Event.delete Table.pool p.ID,
              Event.delete Table.account a.ID ]) ∧
    (∀ v ∈ volumes, Event.delete Table.volume v.ID
      ∈ teardownDeletes volumes replications pools svms accounts) ∧
    (∀ r ∈ replications, Event.delete Table.replication r.ID
      ∈ teardownDeletes volumes replications pools svms accounts) ∧
    (∀ p ∈ pools, Event.delete Table.pool p.ID
      ∈ teardownDeletes volumes replications pools svms accounts) ∧
    (∀ s ∈ svms, Event.delete Table.svm s.ID
      ∈ teardownDeletes volumes replications pools svms accounts) ∧
    (∀ a, accounts[0]? = some a → Event.delete Table.account a.ID
      ∈ teardownDeletes volumes replications pools svms accounts) ∧
    (∀ (store : Store) (ConsumerProjectID : String) (tps : Except String (List String))
      (numTPs numPoolsEachTP numVolumesEachPool : Nat) (res : Resources),
      1 ≤ numTPs → 1 ≤ numPoolsEachTP → 1 ≤ numVolumesEachPool →
      setupResources store ConsumerProjectID tps numTPs numPoolsEachTP numVolumesEachPool
        = Except.ok res →
      res.replications.length = res.volumes.length ∧ res.svms.length = res.pools.length ∧
      1 ≤ res.pools.length ∧ res.pools.length ≤ res.volumes.length ∧ res.accounts ≠ []) := by
  have hev := fun i (hi : i < volumes.length) =>
    cleanupEvents_eq volumes replications pools svms accounts i hi hrep hsvm hpool hacc
  have hmem := mem_teardownDeletes volumes replications pools svms accounts
  refine ⟨?_, hev, ?_, ?_, ?_, ?_, ?_, ?_⟩
  · apply cleanupAllResourcesOver_ok
    intro i hi
    obtain ⟨v, r, p, s, a, _, _, _, _, _, hargs⟩ :=
      cleanupArgs_ok volumes replications pools svms accounts i (List.mem_range.1 hi)
        hrep hsvm hpool hacc
    exact ⟨_, hargs⟩
  · intro v hv
    obtain ⟨i, hlook⟩ := List.mem_iff_getElem?.1 hv
    have hi : i < volumes.length := (List.getElem?_eq_some.1 hlook).1
    obtain ⟨v', r, p, s, a, hv', _, _, _, _, hevents⟩ := hev i hi
    have hvv : v' = v := Option.some.inj (hv'.symm.trans hlook)
    subst hvv
    exact hmem i _ hi (by rw [hevents]; simp)
  · intro r hr
    obtain ⟨i, hlook⟩ := List.mem_iff_getElem?.1 hr
    have hi : i < volumes.length := by
      have := (List.getElem?_eq_some.1 hlook).1
      omega
    obtain ⟨v, r', p, s, a, _, hr', _, _, _, hevents⟩ := hev i hi
    have hrr : r' = r := Option.some.inj (hr'.symm.trans hlook)
    subst hrr
    exact hmem i _ hi (by rw [hevents]; simp)
  · intro p hp
    obtain ⟨j, hlook⟩ := List.mem_iff_getElem?.1 hp
    have hj : j < pools.length := (List.getElem?_eq_some.1 hlook).1
    have hi : j < volumes.length := by omega
    obtain ⟨v, r, p', s, a, _, _, hp', _, _, hevents⟩ := hev j hi
    rw [Nat.mod_eq_of_lt hj] at hp'
    have hpp : p' = p := Option.some.inj (hp'.symm.trans hlook)
    subst hpp
    exact hmem j _ hi (by rw [hevents]; simp)
  · intro s hs
    obtain ⟨j, hlook⟩ := List.mem_iff_getElem?.1 hs
    have hj : j < svms.length := (List.getElem?_eq_some.1 hlook).1
    have hi : j < volumes.length := by omega
    obtain ⟨v, r, p, s', a, _, _, _, hs', _, hevents⟩ := hev j hi
    rw [Nat.mod_eq_of_lt hj] at hs'
    have hss : s' = s := Option.some.inj (hs'.symm.trans hlook)
    subst hss
    exact hmem j _ hi (by rw [hevents]; simp)
  · intro a ha
    have hi : 0 < volumes.length := by omega
    obtain ⟨v, r, p, s, a', _, _, _, _, ha', hevents⟩ := hev 0 hi
    have haa : a' = a := Option.some.inj (ha'.symm.trans ha)
    subst haa
    exact hmem 0 _ hi (by rw [hevents]; simp)
  · intro store ConsumerProjectID tps numTPs numPoolsEachTP numVolumesEachPool res h1 h2 h3 h
    obtain ⟨ha, hp, hs, hv, hr⟩ :=
      setupResources_shape store ConsumerProjectID tps numTPs numPoolsEachTP
        numVolumesEachPool res h
    have hpos : 1 ≤ numTPs * numPoolsEachTP := Nat.mul_pos h1 h2
    refine ⟨by rw [hr, hv], by rw [hs, hp], by rw [hp]; exact hpos, ?_, ?_⟩
    · rw [hp, hv, ← Nat.mul_assoc]
      exact Nat.le_mul_of_pos_right _ h3
    · intro hnil
      rw [hnil] at ha
      simp at ha

/-- Witness of C11: two volumes with their replications, one pool, one svm, one
account. -/
theorem teardown_coverage_witness :
    exampleReplications.length = exampleVolumes.length ∧
    exampleSvms.length = examplePools.length ∧
    1 ≤ examplePools.length ∧
    examplePools.length ≤ exampleVolumes.length ∧
    exampleAccounts ≠ [] ∧
    cleanupAllResources exampleVolumes exampleReplications examplePools exampleSvms exampleAccounts []
      = ([] ++ teardownDeletes exampleVolumes exampleReplications examplePools exampleSvms exampleAccounts, none) ∧
    (∀ i, i < exampleVolumes.length →
      ∃ v r p s a, exampleVolumes[i]? = some v ∧ exampleReplications[i]? = some r ∧
        examplePools[i % examplePools.length]? = some p ∧ exampleSvms[i % exampleSvms.length]? = some s ∧
        exampleAccounts[0]? = some a ∧
        cleanupEvents exampleVolumes exampleReplications examplePools exampleSvms exampleAccounts i
          = [ Event.delete Table.replication r.ID, Event.delete Table.volume v.ID,
              Event.delete Table.svm s.ID, Event.delete Table.pool p.ID,
              Event.delete Table.account a.ID ]) ∧
    (∀ v ∈ exampleVolumes, Event.delete Table.volume v.ID
      ∈ teardownDeletes exampleVolumes exampleReplications examplePools exampleSvms exampleAccounts) ∧
    (∀ r ∈ exampleReplications, Event.delete Table.replication r.ID
      ∈ teardownDeletes exampleVolumes exampleReplications examplePools exampleSvms exampleAccounts) ∧
    (∀ p ∈ examplePools, Event.delete Table.pool p.ID
      ∈ teardownDeletes exampleVolumes exampleReplications examplePools exampleSvms exampleAccounts) ∧
    (∀ s ∈ exampleSvms, Event.delete Table.svm s.ID
      ∈ teardownDeletes exampleVolumes exampleReplications examplePools exampleSvms exampleAccounts) ∧
    (∀ a, exampleAccounts[0]? = some a → Event.delete Table.account a.ID
      ∈ teardownDeletes exampleVolumes exampleReplications examplePools exampleSvms exampleAccounts) ∧
    (∀ (store : Store) (ConsumerProjectID : String) (tps : Except String (List String))
      (numTPs numPoolsEachTP numVolumesEachPool : Nat) (res : Resources),
      1 ≤ numTPs → 1 ≤ numPoolsEachTP → 1 ≤ numVolumesEachPool →
      setupResources store ConsumerProjectID tps numTPs numPoolsEachTP numVolumesEachPool
        = Except.ok res →
      res.replications.length = res.volumes.length ∧ res.svms.length = res.pools.length ∧
      1 ≤ res.pools.length ∧ res.pools.length ≤ res.volumes.length ∧ res.accounts ≠ []) :=
  ⟨by decide, by decide, by decide, by decide, by decide,
    teardown_coverage exampleVolumes exampleReplications examplePools exampleSvms
      exampleAccounts [] (by decide) (by decide) (by decide) (by decide) (by decide)⟩

end LoadTest
